import Mathlib

/-!
# ArdDmx: pixel buffer to DMX channel mapping

A shallow embedding of `include/ArdDmx.h` (class `ArdDmx`), with the
configuration that `setup()` of `src/main.cpp` passes to it, and of the hue
update (`update_hue`, `loop`) of `src/main.cpp`.

Conventions of the embedding

* `uint8_t` and `uint16_t` values are natural numbers; where the source computes
  in 16 bits (`start_channel`, the channel argument of `setChannelValue`) the
  reduction `% 65536` is written out.
* A heap pointer is an `Option`: `none` is `nullptr`, `some xs` is a live
  block holding `xs`.  Reading or writing through `nullptr`, or outside the
  block, is undefined behaviour; an operation that does so has result `none`.
* The calls the mapper makes on the `DMX_Master` transport (an external
  library) are recorded as a list of `DmxCall` events, in program order.
* The outcome of each heap allocation attempted by `Initialize` is an input
  (`AllocOutcome`).
* An `int` is an integer of `int_bits` bits, a parameter; an `int` operation
  whose exact result is not representable is undefined, with result `none`.
-/

namespace Fiddlehex

/-- Status codes of `enum eArdDmxStatus`. -/
inductive eArdDmxStatus where
  | kArdDmxSuccess
  | kArdDmxAllocFailed
  | kArdDmxBadInput
  deriving DecidableEq, Repr

open eArdDmxStatus

/-! ### `enum eArdDmxOrder`

The enumerators carry their implicit values 0..17; a selector is the underlying
integer, so that values outside the enumeration can be expressed. -/

abbrev kArdDmxRGB : Nat := 0
abbrev kArdDmxRBG : Nat := 1
abbrev kArdDmxGRB : Nat := 2
abbrev kArdDmxGBR : Nat := 3
abbrev kArdDmxBRG : Nat := 4
abbrev kArdDmxBGR : Nat := 5
abbrev kArdDmxRGBW : Nat := 6
abbrev kArdDmxRBGW : Nat := 7
abbrev kArdDmxGRBW : Nat := 8
abbrev kArdDmxGBRW : Nat := 9
abbrev kArdDmxBRGW : Nat := 10
abbrev kArdDmxBGRW : Nat := 11
abbrev kArdDmxWRGB : Nat := 12
abbrev kArdDmxWRBG : Nat := 13
abbrev kArdDmxWGRB : Nat := 14
abbrev kArdDmxWGBR : Nat := 15
abbrev kArdDmxWBRG : Nat := 16
abbrev kArdDmxWBGR : Nat := 17

/-- The four logical colour components of a light. -/
inductive Component where
  | R
  | G
  | B
  | W
  deriving DecidableEq, Repr

/-- The order written in the `@brief Order [...]` comment of each enumerator of
`eArdDmxOrder` (lines 70..107 of the header), transcribed literally.  Values
that are not enumerators have no documented order. -/
def documentedOrder (colorOrder : Nat) : Option (List Component) :=
  open Component in
  match colorOrder with
  | 0 => some [R, G, B]
  | 1 => some [R, B, G]
  | 2 => some [G, R, B]
  | 3 => some [G, B, R]
  | 4 => some [B, R, G]
  | 5 => some [B, G, R]
  | 6 => some [R, G, B, W]
  | 7 => some [R, B, G, W]
  | 8 => some [G, R, B, W]
  | 9 => some [G, B, R, W]
  | 10 => some [B, R, G, W]
  | 11 => some [B, G, R, W]
  | 12 => some [W, R, G, B]
  | 13 => some [W, R, B, G]
  | 14 => some [W, G, R, B]
  | 15 => some [W, G, B, R]
  | 16 => some [W, B, R, G]
  | 17 => some [W, B, G, R]
  | _ => none

/-- The struct `ArdDmxParameters`, with its default member initialisers. -/
structure ArdDmxParameters where
  pin : Nat := 2
  num_leds : Nat := 0
  color_order : Nat := kArdDmxRGB
  dmx_channels_per_light : Nat := 4
  dmx_channel_offset : Nat := 0
  dmx_max_channels : Nat := 512
  deriving DecidableEq, Repr

/-- FastLED's `CRGB`: three 8-bit components. -/
structure CRGB where
  r : Nat
  g : Nat
  b : Nat
  deriving DecidableEq, Repr

/-- The value built by the default constructor call `CRGB()` in `GetPixel`, and
the content of one `calloc`-ed `CRGB` cell: black. -/
def CRGB.black : CRGB := ⟨0, 0, 0⟩

/-- The member `uint8_t m_rgbw[4]`: entries 0..3 are the 1-based positions of
red, green, blue and white inside one light's channel block. -/
structure RgbwTable where
  pos_R : Nat
  pos_G : Nat
  pos_B : Nat
  pos_W : Nat
  deriving DecidableEq, Repr

/-- Entry of the table for a component: `rgbw[0]`, `rgbw[1]`, `rgbw[2]`, `rgbw[3]`. -/
def RgbwTable.get (t : RgbwTable) : Component → Nat
  | .R => t.pos_R
  | .G => t.pos_G
  | .B => t.pos_B
  | .W => t.pos_W

/-- The table as the list `[rgbw[0], rgbw[1], rgbw[2], rgbw[3]]`. -/
def RgbwTable.toList (t : RgbwTable) : List Nat := [t.pos_R, t.pos_G, t.pos_B, t.pos_W]

/-- A live `DMX_Master` object, as constructed by
`new DMX_Master(dmx_max_channels, pin)`. -/
structure DMX_Master where
  max_channels : Nat
  pin : Nat
  deriving DecidableEq, Repr

/-- One call made by the mapper on the transport, or the creation or deletion
of the transport object. -/
inductive DmxCall where
  | construct (max_channels pin : Nat)
  | destruct
  | enable
  | disable
  | setChannelRange (start stop value : Nat)
  | setChannelValue (channel value : Nat)
  deriving DecidableEq, Repr

/-- The data members of `class ArdDmx`. -/
structure ArdDmx where
  m_leds : Option (List CRGB)
  m_white_leds : Option (List Nat)
  m_dmx_master : Option DMX_Master
  m_params : ArdDmxParameters
  m_rgbw : RgbwTable
  deriving DecidableEq, Repr

/-- The state built by the defaulted constructor `ArdDmx() = default`, from the
default member initialisers. -/
def ArdDmx.fresh : ArdDmx :=
  { m_leds := none
    m_white_leds := none
    m_dmx_master := none
    m_params := {}
    m_rgbw := ⟨1, 2, 3, 4⟩ }

/-- Whether each of the three allocations of `Initialize` succeeds, should it
be attempted: the `calloc` of the colour buffer, the `calloc` of the white
buffer, and `new DMX_Master`. -/
structure AllocOutcome where
  leds_ok : Bool
  white_ok : Bool
  master_ok : Bool
  deriving DecidableEq, Repr

/-- The function `ArdDmx::SetColorOrder`: the `switch` over the selector.  Every
branch assigns all four entries of the array, so the table is returned. -/
def SetColorOrder (colorOrder : Nat) : RgbwTable :=
  if colorOrder = kArdDmxRGB ∨ colorOrder = kArdDmxRGBW then ⟨1, 2, 3, 4⟩
  else if colorOrder = kArdDmxGBR ∨ colorOrder = kArdDmxGBRW then ⟨2, 3, 1, 4⟩
  else if colorOrder = kArdDmxBRG ∨ colorOrder = kArdDmxBRGW then ⟨3, 1, 2, 4⟩
  else if colorOrder = kArdDmxRBG ∨ colorOrder = kArdDmxRBGW then ⟨1, 3, 2, 4⟩
  else if colorOrder = kArdDmxBGR ∨ colorOrder = kArdDmxBGRW then ⟨3, 2, 1, 4⟩
  else if colorOrder = kArdDmxGRB ∨ colorOrder = kArdDmxGRBW then ⟨2, 1, 3, 4⟩
  else if colorOrder = kArdDmxWRGB then ⟨2, 3, 4, 1⟩
  else if colorOrder = kArdDmxWGBR then ⟨3, 4, 2, 1⟩
  else if colorOrder = kArdDmxWBRG then ⟨4, 2, 3, 1⟩
  else if colorOrder = kArdDmxWRBG then ⟨2, 4, 3, 1⟩
  else if colorOrder = kArdDmxWBGR then ⟨4, 3, 2, 1⟩
  else if colorOrder = kArdDmxWGRB then ⟨3, 2, 4, 1⟩
  else ⟨1, 2, 3, 4⟩

/-- The transport events of `delete m_dmx_master`: deleting a null pointer does
nothing, deleting a live master runs its destructor. -/
def deleteMaster : Option DMX_Master → List DmxCall
  | none => []
  | some _ => [DmxCall.destruct]

/-- The function `ArdDmx::Initialize`.  Result: the status returned, the
mapper state on return, and the transport events of the call. -/
def Initialize (s : ArdDmx) (parameters : ArdDmxParameters) (alloc : AllocOutcome) :
    eArdDmxStatus × ArdDmx × List DmxCall :=
  -- check inputs
  if parameters.num_leds < 1 ∨ parameters.dmx_channels_per_light < 4 then
    (kArdDmxBadInput, s, [])
  else
    -- Deallocate memory
    let ev0 := deleteMaster s.m_dmx_master
    let s1 : ArdDmx := { s with m_leds := none, m_white_leds := none, m_dmx_master := none }
    -- Allocate memory
    if alloc.leds_ok = false then
      (kArdDmxAllocFailed, s1, ev0)
    else
      let s2 : ArdDmx := { s1 with m_leds := some (List.replicate parameters.num_leds CRGB.black) }
      if alloc.white_ok = false then
        (kArdDmxAllocFailed, s2, ev0)
      else
        let s3 : ArdDmx :=
          { s2 with m_white_leds := some (List.replicate parameters.num_leds 0) }
        let s4 : ArdDmx := { s3 with m_rgbw := SetColorOrder parameters.color_order }
        -- Initialize DMX master
        if alloc.master_ok = false then
          (kArdDmxAllocFailed, { s4 with m_leds := none }, ev0)
        else
          let s5 : ArdDmx :=
            { s4 with
              m_dmx_master := some ⟨parameters.dmx_max_channels, parameters.pin⟩ }
          -- enable and clear all channels, save parameters
          (kArdDmxSuccess, { s5 with m_params := parameters },
            ev0 ++ [DmxCall.construct parameters.dmx_max_channels parameters.pin,
                    DmxCall.enable,
                    DmxCall.setChannelRange parameters.dmx_channel_offset
                      parameters.dmx_max_channels 0])

/-- The destructor `ArdDmx::~ArdDmx`: the transport events it issues. -/
def destroy (s : ArdDmx) : List DmxCall :=
  match s.m_dmx_master with
  | some _ =>
      [DmxCall.setChannelRange s.m_params.dmx_channel_offset s.m_params.dmx_max_channels 0,
       DmxCall.disable, DmxCall.destruct]
  | none => []

/-- The accessor `ArdDmx::GetNumPixels`. -/
def GetNumPixels (s : ArdDmx) : Nat := s.m_params.num_leds

/-- The read `p[pixel]` through a pointer `p`: undefined through `nullptr` or
outside the block. -/
def readAt {α : Type} (p : Option (List α)) (pixel : Nat) : Option α :=
  match p with
  | none => none
  | some xs => xs[pixel]?

/-- The write `p[pixel] = v` through a pointer `p`: undefined through `nullptr`
or outside the block. -/
def writeAt {α : Type} (p : Option (List α)) (pixel : Nat) (v : α) : Option (Option (List α)) :=
  match p with
  | none => none
  | some xs => if pixel < xs.length then some (some (xs.set pixel v)) else none

/-- The function `ArdDmx::GetWhitePixel`. -/
def GetWhitePixel (s : ArdDmx) (pixel : Nat) : Option Nat :=
  if pixel < s.m_params.num_leds then readAt s.m_white_leds pixel else some 0

/-- The function `ArdDmx::GetPixel`. -/
def GetPixel (s : ArdDmx) (pixel : Nat) : Option CRGB :=
  if pixel < s.m_params.num_leds then readAt s.m_leds pixel else some CRGB.black

/-- The two statements `m_leds[pixel] = color; m_white_leds[pixel] = white;`
shared by the bodies of the mutators. -/
def storePixel (s : ArdDmx) (pixel : Nat) (color : CRGB) (white : Nat) : Option ArdDmx :=
  match writeAt s.m_leds pixel color with
  | none => none
  | some leds =>
    match writeAt s.m_white_leds pixel white with
    | none => none
    | some whites => some { s with m_leds := leds, m_white_leds := whites }

/-- The function `ArdDmx::SetPixelColor`. -/
def SetPixelColor (s : ArdDmx) (pixel : Nat) (color : CRGB) (white : Nat) : Option ArdDmx :=
  if pixel < s.m_params.num_leds then storePixel s pixel color white else some s

/-- The function `ArdDmx::SetPixel`; `setRGB(red, green, blue)` assigns the three
components of the cell. -/
def SetPixel (s : ArdDmx) (pixel red green blue white : Nat) : Option ArdDmx :=
  if pixel < s.m_params.num_leds then storePixel s pixel ⟨red, green, blue⟩ white else some s

/-- The function `ArdDmx::SetPixelHSV`; `setHSV(hue, sat, val)` assigns to the cell
the result of FastLED's conversion, which is the parameter `hsv2rgb`. -/
def SetPixelHSV (hsv2rgb : Nat → Nat → Nat → CRGB) (s : ArdDmx)
    (pixel hue sat val white : Nat) : Option ArdDmx :=
  if pixel < s.m_params.num_leds then storePixel s pixel (hsv2rgb hue sat val) white else some s

/-- The loop of `ArdDmx::SetAll` from index `pixel` on, with `todo` iterations left. -/
def SetAll.loop (red green blue white : Nat) : Nat → Nat → ArdDmx → Option ArdDmx
  | 0, _, s => some s
  | todo + 1, pixel, s =>
    match storePixel s pixel ⟨red, green, blue⟩ white with
    | none => none
    | some s1 => SetAll.loop red green blue white todo (pixel + 1) s1

/-- The function `ArdDmx::SetAll`. -/
def SetAll (s : ArdDmx) (red green blue white : Nat) : Option ArdDmx :=
  SetAll.loop red green blue white s.m_params.num_leds 0 s

/-- The 16-bit `start_channel` computed by `ShowStrip` for a pixel. -/
def start_channel (s : ArdDmx) (pixel : Nat) : Nat :=
  (s.m_params.dmx_channel_offset + s.m_params.dmx_channels_per_light * pixel) % 65536

/-- The four `setChannelValue` calls of one iteration of the loop of `ShowStrip`;
the channel argument is a `uint16_t`. -/
def pixelCalls (s : ArdDmx) (pixel : Nat) (color : CRGB) (white : Nat) : List DmxCall :=
  [DmxCall.setChannelValue ((start_channel s pixel + s.m_rgbw.pos_R) % 65536) color.r,
   DmxCall.setChannelValue ((start_channel s pixel + s.m_rgbw.pos_G) % 65536) color.g,
   DmxCall.setChannelValue ((start_channel s pixel + s.m_rgbw.pos_B) % 65536) color.b,
   DmxCall.setChannelValue ((start_channel s pixel + s.m_rgbw.pos_W) % 65536) white]

/-- The loop of `ArdDmx::ShowStrip` from index `pixel` on, with `todo` iterations
left: the calls issued, or `none` when a buffer read is undefined. -/
def ShowStrip.loop (s : ArdDmx) : Nat → Nat → Option (List DmxCall)
  | 0, _ => some []
  | todo + 1, pixel =>
    match readAt s.m_leds pixel with
    | none => none
    | some color =>
      match readAt s.m_white_leds pixel with
      | none => none
      | some white =>
        match ShowStrip.loop s todo (pixel + 1) with
        | none => none
        | some rest => some (pixelCalls s pixel color white ++ rest)

/-- The function `ArdDmx::ShowStrip`: the mapper state on return (no member is
assigned) and the transport calls issued. -/
def ShowStrip (s : ArdDmx) : Option (ArdDmx × List DmxCall) :=
  match s.m_dmx_master with
  | none => some (s, [])
  | some _ =>
    match ShowStrip.loop s s.m_params.num_leds 0 with
    | none => none
    | some calls => some (s, calls)

/-- Both pixel buffers are live blocks of `num_leds` cells. -/
def Allocated (s : ArdDmx) : Prop :=
  ∃ leds whites, s.m_leds = some leds ∧ s.m_white_leds = some whites ∧
    leds.length = s.m_params.num_leds ∧ whites.length = s.m_params.num_leds

/-- A successfully initialized mapper: the state on return of an `Initialize`
call that returned `kArdDmxSuccess`, followed by any number of calls of the
other public member functions and of `Initialize` calls rejected with
`kArdDmxBadInput`. -/
inductive Initialized : ArdDmx → Prop where
  | init (s0 : ArdDmx) (p : ArdDmxParameters) (a : AllocOutcome) (s : ArdDmx)
      (ev : List DmxCall) :
      Initialize s0 p a = (kArdDmxSuccess, s, ev) → Initialized s
  | setPixelColor (s : ArdDmx) (pixel : Nat) (color : CRGB) (white : Nat) (s1 : ArdDmx) :
      Initialized s → SetPixelColor s pixel color white = some s1 → Initialized s1
  | setPixel (s : ArdDmx) (pixel red green blue white : Nat) (s1 : ArdDmx) :
      Initialized s → SetPixel s pixel red green blue white = some s1 → Initialized s1
  | setPixelHSV (hsv2rgb : Nat → Nat → Nat → CRGB) (s : ArdDmx)
      (pixel hue sat val white : Nat) (s1 : ArdDmx) :
      Initialized s → SetPixelHSV hsv2rgb s pixel hue sat val white = some s1 → Initialized s1
  | setAll (s : ArdDmx) (red green blue white : Nat) (s1 : ArdDmx) :
      Initialized s → SetAll s red green blue white = some s1 → Initialized s1
  | showStrip (s s1 : ArdDmx) (calls : List DmxCall) :
      Initialized s → ShowStrip s = some (s1, calls) → Initialized s1
  | badInput (s : ArdDmx) (p : ArdDmxParameters) (a : AllocOutcome) (s1 : ArdDmx)
      (ev : List DmxCall) :
      Initialized s → Initialize s p a = (kArdDmxBadInput, s1, ev) → Initialized s1

/-- A mapper state that the program can be in: the freshly constructed mapper,
followed by any number of calls of the public member functions, each with a
defined result. -/
inductive Reachable : ArdDmx → Prop where
  | fresh : Reachable ArdDmx.fresh
  | init (s : ArdDmx) (p : ArdDmxParameters) (a : AllocOutcome) :
      Reachable s → Reachable (Initialize s p a).2.1
  | setPixelColor (s : ArdDmx) (pixel : Nat) (color : CRGB) (white : Nat) (s1 : ArdDmx) :
      Reachable s → SetPixelColor s pixel color white = some s1 → Reachable s1
  | setPixel (s : ArdDmx) (pixel red green blue white : Nat) (s1 : ArdDmx) :
      Reachable s → SetPixel s pixel red green blue white = some s1 → Reachable s1
  | setPixelHSV (hsv2rgb : Nat → Nat → Nat → CRGB) (s : ArdDmx)
      (pixel hue sat val white : Nat) (s1 : ArdDmx) :
      Reachable s → SetPixelHSV hsv2rgb s pixel hue sat val white = some s1 → Reachable s1
  | setAll (s : ArdDmx) (red green blue white : Nat) (s1 : ArdDmx) :
      Reachable s → SetAll s red green blue white = some s1 → Reachable s1
  | showStrip (s s1 : ArdDmx) (calls : List DmxCall) :
      Reachable s → ShowStrip s = some (s1, calls) → Reachable s1

/-- What holds of every successfully initialized mapper: live buffers of the
right size, a live transport, validated parameters, and the cached table of the
stored selector. -/
def WellFormed (s : ArdDmx) : Prop :=
  Allocated s ∧ s.m_dmx_master ≠ none ∧ 1 ≤ s.m_params.num_leds ∧
    4 ≤ s.m_params.dmx_channels_per_light ∧ s.m_rgbw = SetColorOrder s.m_params.color_order

/-- A table realises an order when each component listed at 1-based position `k`
has table entry `k`, and white, when the order lists only three components, has
entry 4. -/
def realisesOrder (t : RgbwTable) (order : List Component) : Prop :=
  (∀ (k : Nat) (h : k < order.length), t.get (order.get ⟨k, h⟩) = k + 1) ∧
    (order.length = 3 → t.get Component.W = 4)

instance (t : RgbwTable) (order : List Component) : Decidable (realisesOrder t order) := by
  unfold realisesOrder
  infer_instance

/-- The table written by `SetColorOrder` for a selector realises the order
documented for that selector. -/
def orderRealised (colorOrder : Nat) : Prop :=
  match documentedOrder colorOrder with
  | some order => realisesOrder (SetColorOrder colorOrder) order
  | none => True

instance (colorOrder : Nat) : Decidable (orderRealised colorOrder) := by
  unfold orderRealised
  split <;> infer_instance

/-- The parameters set up by `setup()` in `main.cpp`: six lights, order RGB,
offset 10, ten channels per light. -/
def setupParams : ArdDmxParameters :=
  { num_leds := 6, pin := 2, color_order := kArdDmxRGB,
    dmx_channel_offset := 10, dmx_channels_per_light := 10 }

/-- The mapper after `setup()`: `Initialize(params)` on the fresh mapper, every
allocation succeeding. -/
def setupState : ArdDmx := (Initialize ArdDmx.fresh setupParams ⟨true, true, true⟩).2.1

/-- The mapper of the RGB scenario: after `setup()`, pixel 0 is given colour
(255, 0, 128) and white 7. -/
def scenarioRGB : ArdDmx :=
  { setupState with
    m_leds := some [⟨255, 0, 128⟩, CRGB.black, CRGB.black, CRGB.black, CRGB.black, CRGB.black]
    m_white_leds := some [7, 0, 0, 0, 0, 0] }

/-- The parameters of the WBGR scenario: two lights, order WBGR, offset 0, ten
channels per light. -/
def scenarioWBGRParams : ArdDmxParameters :=
  { num_leds := 2, color_order := kArdDmxWBGR,
    dmx_channel_offset := 0, dmx_channels_per_light := 10 }

/-- The mapper of the WBGR scenario, after `Initialize` on the fresh mapper. -/
def scenarioWBGR : ArdDmx :=
  (Initialize ArdDmx.fresh scenarioWBGRParams ⟨true, true, true⟩).2.1

/-- The mapper set up by `main.cpp` on which a second `Initialize` has failed at
the first allocation. -/
def reinitLedsFailed : ArdDmx := (Initialize setupState setupParams ⟨false, true, true⟩).2.1

/-- Modelled from the spec: FastLED's `CRGB::setHSV(hue, sat, val)`, which is not
among the sources.  The specification calls it the standard 8-bit HSV-to-RGB
conversion: the hue circle of 256 steps is cut into six sectors of 43 steps, and
inside a sector the components are interpolated linearly in 8-bit integer
arithmetic. -/
def hsv2rgb (hue sat val : Nat) : CRGB :=
  if sat = 0 then ⟨val, val, val⟩
  else
    let region := hue / 43
    let remainder := (hue - region * 43) * 6
    let p := (val * (255 - sat)) / 256
    let q := (val * (255 - (sat * remainder) / 256)) / 256
    let t := (val * (255 - (sat * (255 - remainder)) / 256)) / 256
    match region with
    | 0 => ⟨val, t, p⟩
    | 1 => ⟨q, val, p⟩
    | 2 => ⟨p, val, t⟩
    | 3 => ⟨p, q, val⟩
    | 4 => ⟨t, p, val⟩
    | _ => ⟨val, p, q⟩

/-- The component of a pixel that `ShowStrip` writes at the table entry of a
slot: `color.r`, `color.g`, `color.b`, or the white value. -/
def componentValue (color : CRGB) (white : Nat) : Component → Nat
  | .R => color.r
  | .G => color.g
  | .B => color.b
  | .W => white

/-- The value of the last `setChannelValue` call on a channel in a sequence of
transport calls, if there is one. -/
def lastWrite : List DmxCall → Nat → Option Nat
  | [], _ => none
  | call :: rest, channel =>
    match lastWrite rest channel with
    | some v => some v
    | none =>
      match call with
      | .setChannelValue c v => if c = channel then some v else none
      | _ => none

/-- A parameter set whose lights do not fit the 512 channels: 200 lights of four
channels each, offset 0. -/
def overrunParams : ArdDmxParameters :=
  { num_leds := 200, dmx_channels_per_light := 4, dmx_channel_offset := 0,
    dmx_max_channels := 512 }

/-- The fresh mapper after `Initialize(overrunParams)`. -/
def overrunState : ArdDmx := (Initialize ArdDmx.fresh overrunParams ⟨true, true, true⟩).2.1

/-! ### The hue update of `main.cpp`

The width of `int` depends on the target and is the parameter `int_bits` (16 on
the AVR boards, at least 16 on every target).  An `int` is an integer between
`INT_MIN` and `INT_MAX`; signed overflow is undefined, with result `none`. -/

/-- The largest `int` of a target with `int_bits` bits. -/
def INT_MAX (int_bits : Nat) : Int := 2 ^ (int_bits - 1) - 1

/-- The smallest `int` of a target with `int_bits` bits. -/
def INT_MIN (int_bits : Nat) : Int := -(2 ^ (int_bits - 1))

/-- The result of an `int` operation whose exact value is `x`: undefined when `x`
is not representable. -/
def intResult (int_bits : Nat) (x : Int) : Option Int :=
  if INT_MIN int_bits ≤ x ∧ x ≤ INT_MAX int_bits then some x else none

/-- The global `int incr = 3;` of `main.cpp`, never assigned afterwards. -/
def incr : Int := 3

/-- The global `int hue1_range[2] = {100, 135};`. -/
def hue1_range : Int × Int := (100, 135)

/-- The global `int hue2_range[2] = {171, 215};`. -/
def hue2_range : Int × Int := (171, 215)

/-- Modelled from the spec: the macro `constrain(amt, low, high)` of `Arduino.h`,
which is not among the sources; it is the clamp of `amt` into `[low, high]`,
written as the conditional expression
`amt < low ? low : (amt > high ? high : amt)`. -/
def constrain (amt low high : Int) : Int :=
  if amt < low then low else if amt > high then high else amt

/-- The function `update_hue` of `main.cpp`; `range` is the pair
`(range[0], range[1])`. -/
def update_hue (int_bits : Nat) (hue : Int) (range : Int × Int) (increase : Bool) :
    Option Int :=
  match (if increase then intResult int_bits (hue + incr)
         else intResult int_bits (hue - incr)) with
  | none => none
  | some hue1 => some (constrain hue1 range.1 range.2)

/-- The effect of one run of `loop()` on the globals `(hue1, hue2)`; the two
comparisons of a sensor distance with `thresh` are the inputs
`increase_hue1` and `increase_hue2`. -/
def loop (int_bits : Nat) (hues : Int × Int) (increase_hue1 increase_hue2 : Bool) :
    Option (Int × Int) :=
  match update_hue int_bits hues.1 hue1_range increase_hue1 with
  | none => none
  | some hue1 =>
    match update_hue int_bits hues.2 hue2_range increase_hue2 with
    | none => none
    | some hue2 => some (hue1, hue2)

/-- The globals `(hue1, hue2)` after a sequence of runs of `loop()`, one pair of
sensor comparisons per run. -/
def loopRuns (int_bits : Nat) : List (Bool × Bool) → Int × Int → Option (Int × Int)
  | [], hues => some hues
  | inc :: rest, hues =>
    match loop int_bits hues inc.1 inc.2 with
    | none => none
    | some hues1 => loopRuns int_bits rest hues1

/-- The initial values `int hue1 = 110; int hue2 = 200;`. -/
def initialHues : Int × Int := (110, 200)

/-! ## Lemmas on the buffers -/

theorem storePixel_allocated (s : ArdDmx) (leds : List CRGB) (whites : List Nat)
    (pixel : Nat) (color : CRGB) (white : Nat)
    (hl : s.m_leds = some leds) (hw : s.m_white_leds = some whites)
    (h1 : pixel < leds.length) (h2 : pixel < whites.length) :
    storePixel s pixel color white =
      some { s with m_leds := some (leds.set pixel color),
                    m_white_leds := some (whites.set pixel white) } := by
  simp [storePixel, writeAt, hl, hw, h1, h2]

theorem storePixel_some (s s1 : ArdDmx) (pixel : Nat) (color : CRGB) (white : Nat)
    (h : storePixel s pixel color white = some s1) :
    ∃ leds whites, s.m_leds = some leds ∧ s.m_white_leds = some whites ∧
      pixel < leds.length ∧ pixel < whites.length ∧
      s1 = { s with m_leds := some (leds.set pixel color),
                    m_white_leds := some (whites.set pixel white) } := by
  unfold storePixel writeAt at h
  cases hl : s.m_leds with
  | none => simp [hl] at h
  | some leds =>
    cases hw : s.m_white_leds with
    | none =>
      simp only [hl, hw] at h
      split at h <;> simp at h
    | some whites =>
      simp only [hl, hw] at h
      by_cases h1 : pixel < leds.length
      · by_cases h2 : pixel < whites.length
        · simp [h1, h2] at h
          exact ⟨leds, whites, rfl, rfl, h1, h2, h.symm⟩
        · simp [h1, h2] at h
      · simp [h1] at h

theorem storePixel_wellFormed (s s1 : ArdDmx) (pixel : Nat) (color : CRGB) (white : Nat)
    (hs : WellFormed s) (h : storePixel s pixel color white = some s1) : WellFormed s1 := by
  obtain ⟨leds, whites, hl, hw, _, _, rfl⟩ := storePixel_some s s1 pixel color white h
  obtain ⟨⟨l, w, hl2, hw2, hn1, hn2⟩, hm, hn, hc, ht⟩ := hs
  rw [hl] at hl2
  rw [hw] at hw2
  cases hl2
  cases hw2
  exact ⟨⟨_, _, rfl, rfl, by simpa using hn1, by simpa using hn2⟩, hm, hn, hc, ht⟩

/-- The loop of `SetAll` over live buffers: it ends, keeps the buffer sizes and
every other member, and fills the cells `pixel .. pixel + todo - 1`. -/
theorem SetAll_loop_spec (red green blue white : Nat) :
    ∀ (todo pixel : Nat) (s : ArdDmx) (leds : List CRGB) (whites : List Nat),
      s.m_leds = some leds → s.m_white_leds = some whites →
      pixel + todo ≤ leds.length → pixel + todo ≤ whites.length →
      ∃ leds1 whites1,
        SetAll.loop red green blue white todo pixel s =
          some { s with m_leds := some leds1, m_white_leds := some whites1 } ∧
        leds1.length = leds.length ∧ whites1.length = whites.length ∧
        (∀ i, leds1[i]? =
          if pixel ≤ i ∧ i < pixel + todo then some ⟨red, green, blue⟩ else leds[i]?) ∧
        (∀ i, whites1[i]? =
          if pixel ≤ i ∧ i < pixel + todo then some white else whites[i]?) := by
  intro todo
  induction todo with
  | zero =>
    intro pixel s leds whites hl hw _ _
    refine ⟨leds, whites, ?_, rfl, rfl, ?_, ?_⟩
    · simp only [SetAll.loop]
      cases s
      simp_all
    · intro i
      have : ¬ (pixel ≤ i ∧ i < pixel + 0) := by omega
      rw [if_neg this]
    · intro i
      have : ¬ (pixel ≤ i ∧ i < pixel + 0) := by omega
      rw [if_neg this]
  | succ todo ih =>
    intro pixel s leds whites hl hw h1 h2
    have e := storePixel_allocated s leds whites pixel ⟨red, green, blue⟩ white hl hw
      (by omega) (by omega)
    obtain ⟨leds1, whites1, hloop, hlen1, hlen2, hg1, hg2⟩ :=
      ih (pixel + 1)
        { s with m_leds := some (leds.set pixel ⟨red, green, blue⟩),
                 m_white_leds := some (whites.set pixel white) }
        (leds.set pixel ⟨red, green, blue⟩) (whites.set pixel white) rfl rfl
        (by simp; omega) (by simp; omega)
    refine ⟨leds1, whites1, ?_, by simpa using hlen1, by simpa using hlen2, ?_, ?_⟩
    · simp only [SetAll.loop, e]
      exact hloop
    · intro i
      rw [hg1 i, List.getElem?_set]
      by_cases hi : pixel = i
      · subst hi
        have : pixel < leds.length := by omega
        simp [this]
      · by_cases hr : pixel + 1 ≤ i ∧ i < pixel + 1 + todo
        · have : pixel ≤ i ∧ i < pixel + (todo + 1) := by omega
          simp [hr, this]
        · have : ¬ (pixel ≤ i ∧ i < pixel + (todo + 1)) := by omega
          simp [hr, this, hi]
    · intro i
      rw [hg2 i, List.getElem?_set]
      by_cases hi : pixel = i
      · subst hi
        have : pixel < whites.length := by omega
        simp [this]
      · by_cases hr : pixel + 1 ≤ i ∧ i < pixel + 1 + todo
        · have : pixel ≤ i ∧ i < pixel + (todo + 1) := by omega
          simp [hr, this]
        · have : ¬ (pixel ≤ i ∧ i < pixel + (todo + 1)) := by omega
          simp [hr, this, hi]

/-! ## Lemmas on `Initialize` -/

/-- A rejected parameter set: the call returns at once. -/
theorem Initialize_bad (s : ArdDmx) (p : ArdDmxParameters) (a : AllocOutcome)
    (h : p.num_leds < 1 ∨ p.dmx_channels_per_light < 4) :
    Initialize s p a = (kArdDmxBadInput, s, []) := by
  unfold Initialize
  rw [if_pos h]

/-- The status of `Initialize` is `kArdDmxBadInput` only on the first `return`. -/
theorem Initialize_bad_iff (s : ArdDmx) (p : ArdDmxParameters) (a : AllocOutcome) :
    (Initialize s p a).1 = kArdDmxBadInput ↔
      (p.num_leds < 1 ∨ p.dmx_channels_per_light < 4) := by
  constructor
  · intro h
    by_contra hv
    unfold Initialize at h
    rw [if_neg hv] at h
    dsimp only at h
    split at h
    · simp at h
    · split at h
      · simp at h
      · split at h <;> simp at h
  · intro h
    rw [Initialize_bad s p a h]

/-- The state and the events of a successful `Initialize`. -/
theorem Initialize_success (s0 : ArdDmx) (p : ArdDmxParameters) (a : AllocOutcome)
    (s : ArdDmx) (ev : List DmxCall) (h : Initialize s0 p a = (kArdDmxSuccess, s, ev)) :
    (1 ≤ p.num_leds ∧ 4 ≤ p.dmx_channels_per_light) ∧
    s = { m_leds := some (List.replicate p.num_leds CRGB.black)
          m_white_leds := some (List.replicate p.num_leds 0)
          m_dmx_master := some ⟨p.dmx_max_channels, p.pin⟩
          m_params := p
          m_rgbw := SetColorOrder p.color_order } ∧
    ev = deleteMaster s0.m_dmx_master ++
      [DmxCall.construct p.dmx_max_channels p.pin, DmxCall.enable,
       DmxCall.setChannelRange p.dmx_channel_offset p.dmx_max_channels 0] := by
  by_cases hv : p.num_leds < 1 ∨ p.dmx_channels_per_light < 4
  · rw [Initialize_bad s0 p a hv] at h
    simp at h
  · unfold Initialize at h
    rw [if_neg hv] at h
    dsimp only at h
    split at h
    · simp at h
    · split at h
      · simp at h
      · split at h
        · simp at h
        · simp only [Prod.mk.injEq, true_and] at h
          refine ⟨by omega, h.1.symm, h.2.symm⟩

/-- With valid parameters and every allocation succeeding, `Initialize` succeeds. -/
theorem Initialize_ok (s0 : ArdDmx) (p : ArdDmxParameters)
    (h1 : 1 ≤ p.num_leds) (h2 : 4 ≤ p.dmx_channels_per_light) :
    Initialize s0 p ⟨true, true, true⟩ =
      (kArdDmxSuccess,
        { m_leds := some (List.replicate p.num_leds CRGB.black)
          m_white_leds := some (List.replicate p.num_leds 0)
          m_dmx_master := some ⟨p.dmx_max_channels, p.pin⟩
          m_params := p
          m_rgbw := SetColorOrder p.color_order },
        deleteMaster s0.m_dmx_master ++
          [DmxCall.construct p.dmx_max_channels p.pin, DmxCall.enable,
           DmxCall.setChannelRange p.dmx_channel_offset p.dmx_max_channels 0]) := by
  have hv : ¬ (p.num_leds < 1 ∨ p.dmx_channels_per_light < 4) := by omega
  unfold Initialize
  rw [if_neg hv]
  rfl

/-- On every `return` of `Initialize` other than the successful one and the
rejection of the parameters, the transport pointer is null. -/
theorem Initialize_master (s0 : ArdDmx) (p : ArdDmxParameters) (a : AllocOutcome) :
    (Initialize s0 p a).1 = kArdDmxSuccess ∨
    (Initialize s0 p a = (kArdDmxBadInput, s0, [])) ∨
    (Initialize s0 p a).2.1.m_dmx_master = none := by
  by_cases hv : p.num_leds < 1 ∨ p.dmx_channels_per_light < 4
  · exact Or.inr (Or.inl (Initialize_bad s0 p a hv))
  · unfold Initialize
    rw [if_neg hv]
    dsimp only
    split
    · exact Or.inr (Or.inr rfl)
    · split
      · exact Or.inr (Or.inr rfl)
      · split
        · exact Or.inr (Or.inr rfl)
        · exact Or.inl rfl

theorem Initialize_success_wellFormed (s0 : ArdDmx) (p : ArdDmxParameters) (a : AllocOutcome)
    (s : ArdDmx) (ev : List DmxCall) (h : Initialize s0 p a = (kArdDmxSuccess, s, ev)) :
    WellFormed s := by
  obtain ⟨⟨h1, h2⟩, rfl, _⟩ := Initialize_success s0 p a s ev h
  exact ⟨⟨_, _, rfl, rfl, by simp, by simp⟩, by simp, h1, h2, rfl⟩

theorem SetAll_wellFormed (s s1 : ArdDmx) (red green blue white : Nat)
    (hs : WellFormed s) (h : SetAll s red green blue white = some s1) : WellFormed s1 := by
  obtain ⟨⟨leds, whites, hl, hw, hn1, hn2⟩, hm, hn, hc, ht⟩ := hs
  obtain ⟨leds1, whites1, hloop, hlen1, hlen2, _, _⟩ :=
    SetAll_loop_spec red green blue white s.m_params.num_leds 0 s leds whites hl hw
      (by omega) (by omega)
  unfold SetAll at h
  rw [hloop] at h
  cases h
  exact ⟨⟨leds1, whites1, rfl, rfl, by simpa [hlen1] using hn1, by simpa [hlen2] using hn2⟩,
    hm, hn, hc, ht⟩

theorem ShowStrip_state (s s1 : ArdDmx) (calls : List DmxCall)
    (h : ShowStrip s = some (s1, calls)) : s1 = s := by
  unfold ShowStrip at h
  split at h
  · simp at h
    exact h.1.symm
  · split at h
    · simp at h
    · simp at h
      exact h.1.symm

/-- Every successfully initialized mapper is well formed. -/
theorem Initialized.wellFormed {s : ArdDmx} (h : Initialized s) : WellFormed s := by
  induction h with
  | init s0 p a s ev h => exact Initialize_success_wellFormed s0 p a s ev h
  | setPixelColor s pixel color white s1 _ h ih =>
    unfold SetPixelColor at h
    split at h
    · exact storePixel_wellFormed s s1 pixel color white ih h
    · cases h
      exact ih
  | setPixel s pixel red green blue white s1 _ h ih =>
    unfold SetPixel at h
    split at h
    · exact storePixel_wellFormed s s1 pixel _ white ih h
    · cases h
      exact ih
  | setPixelHSV hsv2rgb s pixel hue sat val white s1 _ h ih =>
    unfold SetPixelHSV at h
    split at h
    · exact storePixel_wellFormed s s1 pixel _ white ih h
    · cases h
      exact ih
  | setAll s red green blue white s1 _ h ih => exact SetAll_wellFormed s s1 red green blue white ih h
  | showStrip s s1 calls _ h ih =>
    rw [ShowStrip_state s s1 calls h]
    exact ih
  | badInput s p a s1 ev _ h ih =>
    have hb : (Initialize s p a).1 = kArdDmxBadInput := by rw [h]
    rw [Initialize_bad s p a ((Initialize_bad_iff s p a).1 hb)] at h
    simp only [Prod.mk.injEq, true_and] at h
    rw [← h.1]
    exact ih

/-! ## Lemmas on `ShowStrip` -/

/-- The loop of `ShowStrip` over live buffers: it ends, and issues the four
calls of each pixel, in ascending order of the pixels. -/
theorem ShowStrip_loop_spec (s : ArdDmx) (leds : List CRGB) (whites : List Nat)
    (hl : s.m_leds = some leds) (hw : s.m_white_leds = some whites) :
    ∀ (todo pixel : Nat), pixel + todo ≤ leds.length → pixel + todo ≤ whites.length →
      ShowStrip.loop s todo pixel =
        some ((List.range' pixel todo).flatMap fun i =>
          pixelCalls s i (leds[i]?.getD CRGB.black) (whites[i]?.getD 0)) := by
  intro todo
  induction todo with
  | zero =>
    intro pixel _ _
    simp [ShowStrip.loop]
  | succ todo ih =>
    intro pixel h1 h2
    have e1 : leds[pixel]? = some leds[pixel] := List.getElem?_eq_getElem (by omega)
    have e2 : whites[pixel]? = some whites[pixel] := List.getElem?_eq_getElem (by omega)
    simp only [ShowStrip.loop, readAt, hl, hw, e1, e2, ih (pixel + 1) (by omega) (by omega),
      List.range'_succ, List.flatMap_cons, Option.getD_some]

theorem ShowStrip_wellFormed (s : ArdDmx) (h : WellFormed s) :
    ShowStrip s = some (s, (List.range s.m_params.num_leds).flatMap fun i =>
      pixelCalls s i ((GetPixel s i).getD CRGB.black) ((GetWhitePixel s i).getD 0)) := by
  obtain ⟨⟨leds, whites, hl, hw, hn1, hn2⟩, hm, _, _, _⟩ := h
  have e := ShowStrip_loop_spec s leds whites hl hw s.m_params.num_leds 0 (by omega) (by omega)
  have hf : ∀ i ∈ List.range s.m_params.num_leds,
      pixelCalls s i (leds[i]?.getD CRGB.black) (whites[i]?.getD 0) =
      pixelCalls s i ((GetPixel s i).getD CRGB.black) ((GetWhitePixel s i).getD 0) := by
    intro i hi
    have hi2 : i < s.m_params.num_leds := List.mem_range.1 hi
    simp [GetPixel, GetWhitePixel, readAt, hl, hw, hi2]
  unfold ShowStrip
  cases hmm : s.m_dmx_master with
  | none => exact absurd hmm hm
  | some m =>
    simp only [e, ← List.range_eq_range']
    congr 2
    exact List.flatMap_congr hf

/-- Every cell of a well formed mapper can be read. -/
theorem getPixel_wellFormed (s : ArdDmx) (h : WellFormed s) (i : Nat)
    (hi : i < s.m_params.num_leds) :
    (GetPixel s i).isSome ∧ (GetWhitePixel s i).isSome := by
  obtain ⟨⟨leds, whites, hl, hw, hn1, hn2⟩, _⟩ := h
  have e1 : leds[i]? = some leds[i] := List.getElem?_eq_getElem (by omega)
  have e2 : whites[i]? = some whites[i] := List.getElem?_eq_getElem (by omega)
  simp [GetPixel, GetWhitePixel, readAt, hl, hw, hi, e1, e2]

/-! ## Members that the mutators leave alone -/

theorem storePixel_frame (s s1 : ArdDmx) (pixel : Nat) (color : CRGB) (white : Nat)
    (h : storePixel s pixel color white = some s1) :
    s1.m_dmx_master = s.m_dmx_master ∧ s1.m_params = s.m_params ∧ s1.m_rgbw = s.m_rgbw := by
  obtain ⟨leds, whites, _, _, _, _, rfl⟩ := storePixel_some s s1 pixel color white h
  exact ⟨rfl, rfl, rfl⟩

theorem SetAll_loop_frame (red green blue white : Nat) :
    ∀ (todo pixel : Nat) (s s1 : ArdDmx),
      SetAll.loop red green blue white todo pixel s = some s1 →
      s1.m_dmx_master = s.m_dmx_master ∧ s1.m_params = s.m_params ∧ s1.m_rgbw = s.m_rgbw := by
  intro todo
  induction todo with
  | zero =>
    intro pixel s s1 h
    simp only [SetAll.loop, Option.some.injEq] at h
    subst h
    exact ⟨rfl, rfl, rfl⟩
  | succ todo ih =>
    intro pixel s s1 h
    simp only [SetAll.loop] at h
    cases hs : storePixel s pixel ⟨red, green, blue⟩ white with
    | none => simp [hs] at h
    | some s2 =>
      simp only [hs] at h
      obtain ⟨a1, a2, a3⟩ := ih (pixel + 1) s2 s1 h
      obtain ⟨b1, b2, b3⟩ := storePixel_frame s s2 pixel _ white hs
      exact ⟨a1.trans b1, a2.trans b2, a3.trans b3⟩

/-- In every state the program can be in, either the transport pointer is null
or the mapper is well formed. -/
theorem Reachable.inv {s : ArdDmx} (h : Reachable s) :
    s.m_dmx_master = none ∨ WellFormed s := by
  induction h with
  | fresh => exact Or.inl rfl
  | init s p a _ ih =>
    rcases Initialize_master s p a with h1 | h1 | h1
    · right
      exact Initialize_success_wellFormed s p a (Initialize s p a).2.1 (Initialize s p a).2.2
        (by rw [← h1])
    · rw [h1]
      exact ih
    · exact Or.inl h1
  | setPixelColor s pixel color white s1 _ h ih =>
    unfold SetPixelColor at h
    split at h
    · rcases ih with ih | ih
      · exact Or.inl ((storePixel_frame s s1 pixel color white h).1.trans ih)
      · exact Or.inr (storePixel_wellFormed s s1 pixel color white ih h)
    · cases h
      exact ih
  | setPixel s pixel red green blue white s1 _ h ih =>
    unfold SetPixel at h
    split at h
    · rcases ih with ih | ih
      · exact Or.inl ((storePixel_frame s s1 pixel _ white h).1.trans ih)
      · exact Or.inr (storePixel_wellFormed s s1 pixel _ white ih h)
    · cases h
      exact ih
  | setPixelHSV hsv2rgb s pixel hue sat val white s1 _ h ih =>
    unfold SetPixelHSV at h
    split at h
    · rcases ih with ih | ih
      · exact Or.inl ((storePixel_frame s s1 pixel _ white h).1.trans ih)
      · exact Or.inr (storePixel_wellFormed s s1 pixel _ white ih h)
    · cases h
      exact ih
  | setAll s red green blue white s1 _ h ih =>
    rcases ih with ih | ih
    · exact Or.inl ((SetAll_loop_frame red green blue white _ 0 s s1 h).1.trans ih)
    · exact Or.inr (SetAll_wellFormed s s1 red green blue white ih h)
  | showStrip s s1 calls _ h ih =>
    rw [ShowStrip_state s s1 calls h]
    exact ih

/-- The `default:` label of the `switch`: every value above the last enumerator. -/
theorem SetColorOrder_default (colorOrder : Nat) (h : 17 < colorOrder) :
    SetColorOrder colorOrder = ⟨1, 2, 3, 4⟩ := by
  unfold SetColorOrder kArdDmxRGB kArdDmxRBG kArdDmxGRB kArdDmxGBR kArdDmxBRG kArdDmxBGR
    kArdDmxRGBW kArdDmxRBGW kArdDmxGRBW kArdDmxGBRW kArdDmxBRGW kArdDmxBGRW
    kArdDmxWRGB kArdDmxWRBG kArdDmxWGRB kArdDmxWGBR kArdDmxWBRG kArdDmxWBGR
  repeat rw [if_neg (by omega)]

/-- Every entry of a table written by `SetColorOrder` is between 1 and 4. -/
theorem SetColorOrder_range (colorOrder : Nat) (c : Component) :
    1 ≤ (SetColorOrder colorOrder).get c ∧ (SetColorOrder colorOrder).get c ≤ 4 := by
  by_cases h : 17 < colorOrder
  · rw [SetColorOrder_default colorOrder h]
    cases c <;> decide
  · have h2 : colorOrder ≤ 17 := by omega
    interval_cases colorOrder <;> cases c <;> decide

theorem length_flatMap_four {α : Type} (l : List Nat) (f : Nat → List α)
    (hf : ∀ i, (f i).length = 4) : (l.flatMap f).length = 4 * l.length := by
  induction l with
  | nil => simp
  | cons x xs ih =>
    simp only [List.flatMap_cons, List.length_append, List.length_cons, ih, hf]
    omega

theorem setupState_initialized : Initialized setupState :=
  Initialized.init ArdDmx.fresh setupParams ⟨true, true, true⟩ setupState _ rfl

theorem scenarioRGB_initialized : Initialized scenarioRGB :=
  Initialized.setPixelColor setupState 0 ⟨255, 0, 128⟩ 7 scenarioRGB setupState_initialized rfl

theorem scenarioWBGR_initialized : Initialized scenarioWBGR :=
  Initialized.init ArdDmx.fresh scenarioWBGRParams ⟨true, true, true⟩ scenarioWBGR _ rfl

theorem scenarioRGB_reachable : Reachable scenarioRGB :=
  Reachable.setPixelColor setupState 0 ⟨255, 0, 128⟩ 7 scenarioRGB
    (Reachable.init ArdDmx.fresh setupParams ⟨true, true, true⟩ Reachable.fresh) rfl

/-- Writing cell `i` of a well formed mapper is defined; afterwards cell `i` reads
back what was written, every other cell and every other member is as before. -/
theorem storePixel_spec (s : ArdDmx) (h : WellFormed s) (i : Nat)
    (hi : i < s.m_params.num_leds) (color : CRGB) (white : Nat) :
    ∃ s1, storePixel s i color white = some s1 ∧
      GetPixel s1 i = some color ∧ GetWhitePixel s1 i = some white ∧
      (∀ j, j ≠ i → GetPixel s1 j = GetPixel s j ∧ GetWhitePixel s1 j = GetWhitePixel s j) ∧
      s1.m_params = s.m_params ∧ s1.m_rgbw = s.m_rgbw ∧ s1.m_dmx_master = s.m_dmx_master := by
  obtain ⟨⟨leds, whites, hl, hw, hn1, hn2⟩, _⟩ := h
  have h1 : i < leds.length := by omega
  have h2 : i < whites.length := by omega
  refine ⟨_, storePixel_allocated s leds whites i color white hl hw h1 h2, ?_, ?_, ?_,
    rfl, rfl, rfl⟩
  · simp [GetPixel, readAt, hi, h1]
  · simp [GetWhitePixel, readAt, hi, h2]
  · intro j hj
    have hj2 : ¬ i = j := fun e => hj e.symm
    simp [GetPixel, GetWhitePixel, readAt, hl, hw, List.getElem?_set, hj2]

theorem overrunState_initialized : Initialized overrunState :=
  Initialized.init ArdDmx.fresh overrunParams ⟨true, true, true⟩ overrunState _ rfl

set_option maxRecDepth 100000 in
/-- The four calls of `ShowStrip` for the last pixel of `overrunState`. -/
theorem overrunState_pixel199 :
    pixelCalls overrunState 199 ((GetPixel overrunState 199).getD CRGB.black)
        ((GetWhitePixel overrunState 199).getD 0) =
      [DmxCall.setChannelValue 797 0, DmxCall.setChannelValue 798 0,
       DmxCall.setChannelValue 799 0, DmxCall.setChannelValue 800 0] := by
  rfl

/-- With any conversion that maps hue 0 at full saturation and value to
(255, 0, 0), `SetPixelHSV(i, 0, 255, 255, w)` is `SetPixel(i, 255, 0, 0, w)`. -/
theorem SetPixelHSV_of_red (f : Nat → Nat → Nat → CRGB) (hf : f 0 255 255 = ⟨255, 0, 0⟩)
    (s : ArdDmx) (i white : Nat) :
    SetPixelHSV f s i 0 255 255 white = SetPixel s i 255 0 0 white := by
  unfold SetPixelHSV SetPixel
  rw [hf]

/-! ## Lemmas on the channel addresses -/

/-- The table written by `SetColorOrder` has four different entries. -/
theorem SetColorOrder_injective (colorOrder : Nat) (c d : Component)
    (h : (SetColorOrder colorOrder).get c = (SetColorOrder colorOrder).get d) : c = d := by
  by_cases h17 : 17 < colorOrder
  · rw [SetColorOrder_default colorOrder h17] at h
    cases c <;> cases d <;> first | rfl | (simp [RgbwTable.get] at h)
  · have h2 : colorOrder ≤ 17 := by omega
    interval_cases colorOrder <;> cases c <;> cases d <;>
      first | rfl | (exact absurd h (by decide))

/-- Two addresses `offset + stride * i + entry` with entries between 1 and 4 and a
stride of at least 4 agree only for the same pixel and the same entry. -/
theorem address_injective (offset stride i j a b : Nat) (hs : 4 ≤ stride)
    (ha : 1 ≤ a ∧ a ≤ 4) (hb : 1 ≤ b ∧ b ≤ 4)
    (h : offset + stride * i + a = offset + stride * j + b) : i = j ∧ a = b := by
  have hij : i = j := by
    rcases Nat.lt_trichotomy i j with hlt | heq | hgt
    · have := Nat.mul_le_mul_left stride (Nat.succ_le_of_lt hlt)
      rw [Nat.mul_succ] at this
      omega
    · exact heq
    · have := Nat.mul_le_mul_left stride (Nat.succ_le_of_lt hgt)
      rw [Nat.mul_succ] at this
      omega
  subst hij
  exact ⟨rfl, by omega⟩

/-- Without 16-bit wrap, the calls of one pixel are the four components at
`offset + stride * i + table[slot]`. -/
theorem mem_pixelCalls (s : ArdDmx) (h : WellFormed s)
    (hb : s.m_params.dmx_channel_offset
      + s.m_params.dmx_channels_per_light * (s.m_params.num_leds - 1) + 4 ≤ 65535)
    (i : Nat) (hi : i < s.m_params.num_leds) (color : CRGB) (white : Nat) (x : DmxCall) :
    x ∈ pixelCalls s i color white ↔
      ∃ d : Component, x = DmxCall.setChannelValue
        (s.m_params.dmx_channel_offset + s.m_params.dmx_channels_per_light * i
          + (SetColorOrder s.m_params.color_order).get d)
        (componentValue color white d) := by
  have ht : s.m_rgbw = SetColorOrder s.m_params.color_order := h.2.2.2.2
  have hm : s.m_params.dmx_channels_per_light * i
      ≤ s.m_params.dmx_channels_per_light * (s.m_params.num_leds - 1) :=
    Nat.mul_le_mul_left _ (by omega)
  have hR := (SetColorOrder_range s.m_params.color_order Component.R).2
  have hG := (SetColorOrder_range s.m_params.color_order Component.G).2
  have hB := (SetColorOrder_range s.m_params.color_order Component.B).2
  have hW := (SetColorOrder_range s.m_params.color_order Component.W).2
  have e0 : start_channel s i
      = s.m_params.dmx_channel_offset + s.m_params.dmx_channels_per_light * i :=
    Nat.mod_eq_of_lt (by omega)
  simp only [pixelCalls, e0, ht, RgbwTable.get] at hR hG hB hW ⊢
  rw [Nat.mod_eq_of_lt (by omega), Nat.mod_eq_of_lt (by omega), Nat.mod_eq_of_lt (by omega),
    Nat.mod_eq_of_lt (by omega)]
  constructor
  · intro hx
    simp only [List.mem_cons, List.mem_singleton, List.not_mem_nil, or_false] at hx
    rcases hx with hx | hx | hx | hx
    · exact ⟨Component.R, hx⟩
    · exact ⟨Component.G, hx⟩
    · exact ⟨Component.B, hx⟩
    · exact ⟨Component.W, hx⟩
  · rintro ⟨d, rfl⟩
    cases d <;> simp [componentValue, RgbwTable.get]

/-! ## Lemmas on `lastWrite` -/

theorem lastWrite_mem (calls : List DmxCall) (channel v : Nat)
    (h : lastWrite calls channel = some v) : DmxCall.setChannelValue channel v ∈ calls := by
  induction calls with
  | nil => simp [lastWrite] at h
  | cons call rest ih =>
    simp only [lastWrite] at h
    cases hr : lastWrite rest channel with
    | some v1 =>
      rw [hr] at h
      simp only [Option.some.injEq] at h
      subst h
      exact List.mem_cons_of_mem _ (ih hr)
    | none =>
      rw [hr] at h
      cases call with
      | setChannelValue c v1 =>
        simp only at h
        split at h
        · rename_i hc
          simp only [Option.some.injEq] at h
          subst hc
          subst h
          exact List.mem_cons_self _ _
        · simp at h
      | _ => simp at h

theorem lastWrite_isSome (calls : List DmxCall) (channel v : Nat)
    (h : DmxCall.setChannelValue channel v ∈ calls) : ∃ v1, lastWrite calls channel = some v1 := by
  induction calls with
  | nil => simp at h
  | cons call rest ih =>
    simp only [lastWrite]
    cases hr : lastWrite rest channel with
    | some v1 => exact ⟨v1, rfl⟩
    | none =>
      rcases List.mem_cons.1 h with h1 | h1
      · subst h1
        exact ⟨v, by simp⟩
      · obtain ⟨v1, hv1⟩ := ih h1
        rw [hr] at hv1
        simp at hv1

/-- A channel written with one value only has that value as its last write. -/
theorem lastWrite_unique (calls : List DmxCall) (channel v : Nat)
    (h : DmxCall.setChannelValue channel v ∈ calls)
    (hu : ∀ v1, DmxCall.setChannelValue channel v1 ∈ calls → v1 = v) :
    lastWrite calls channel = some v := by
  obtain ⟨v1, hv1⟩ := lastWrite_isSome calls channel v h
  rw [hv1, hu v1 (lastWrite_mem calls channel v1 hv1)]

/-! ## Lemmas on the hue update -/

/-- An `int` has at least 16 bits, so `INT_MAX` is at least 32767. -/
theorem INT_MAX_ge (int_bits : Nat) (h : 16 ≤ int_bits) : 32767 ≤ INT_MAX int_bits := by
  have h1 : (2 : Int) ^ 15 ≤ 2 ^ (int_bits - 1) :=
    pow_le_pow_right₀ (by norm_num) (by omega)
  unfold INT_MAX
  norm_num at h1 ⊢
  omega

theorem INT_MIN_eq (int_bits : Nat) : INT_MIN int_bits = -(INT_MAX int_bits) - 1 := by
  unfold INT_MIN INT_MAX
  omega

theorem constrain_band (amt low high : Int) (h : low ≤ high) :
    low ≤ constrain amt low high ∧ constrain amt low high ≤ high ∧
    constrain amt low high = max low (min high amt) := by
  unfold constrain
  split
  · refine ⟨le_refl _, h, ?_⟩
    rw [max_eq_left]
    exact le_trans (min_le_right _ _) (by omega)
  · split
    · refine ⟨h, le_refl _, ?_⟩
      rw [min_eq_left (by omega), max_eq_right h]
    · refine ⟨by omega, by omega, ?_⟩
      rw [min_eq_right (by omega), max_eq_right (by omega)]

/-- Where the sum or the difference is representable, `update_hue` returns its
clamp. -/
theorem update_hue_some (int_bits : Nat) (hue : Int) (range : Int × Int) (increase : Bool)
    (hint : INT_MIN int_bits ≤ hue ∧ hue ≤ INT_MAX int_bits)
    (hfit : if increase = true then hue + 3 ≤ INT_MAX int_bits
            else INT_MIN int_bits ≤ hue - 3) :
    update_hue int_bits hue range increase =
      some (constrain (if increase = true then hue + 3 else hue - 3) range.1 range.2) := by
  cases increase with
  | true =>
    simp only [if_true] at hfit ⊢
    have hc : INT_MIN int_bits ≤ hue + 3 ∧ hue + 3 ≤ INT_MAX int_bits := ⟨by omega, hfit⟩
    simp [update_hue, intResult, incr, hc]
  | false =>
    simp only [Bool.false_eq_true, if_false] at hfit ⊢
    have hc : INT_MIN int_bits ≤ hue - 3 ∧ hue - 3 ≤ INT_MAX int_bits := ⟨hfit, by omega⟩
    simp [update_hue, intResult, incr, hc]

/-- The bands of the two hues are kept by every sequence of runs of `loop()`. -/
theorem loopRuns_band (int_bits : Nat) (hbits : 16 ≤ int_bits) :
    ∀ (inputs : List (Bool × Bool)) (hues : Int × Int),
      100 ≤ hues.1 → hues.1 ≤ 135 → 171 ≤ hues.2 → hues.2 ≤ 215 →
      ∃ hue1 hue2, loopRuns int_bits inputs hues = some (hue1, hue2) ∧
        100 ≤ hue1 ∧ hue1 ≤ 135 ∧ 171 ≤ hue2 ∧ hue2 ≤ 215 := by
  have hmax := INT_MAX_ge int_bits hbits
  have hmin := INT_MIN_eq int_bits
  intro inputs
  induction inputs with
  | nil =>
    intro hues a1 a2 a3 a4
    exact ⟨hues.1, hues.2, rfl, a1, a2, a3, a4⟩
  | cons inc rest ih =>
    intro hues a1 a2 a3 a4
    have e1 := update_hue_some int_bits hues.1 hue1_range inc.1 ⟨by omega, by omega⟩
      (by split <;> omega)
    have e2 := update_hue_some int_bits hues.2 hue2_range inc.2 ⟨by omega, by omega⟩
      (by split <;> omega)
    have b1 := constrain_band (if inc.1 = true then hues.1 + 3 else hues.1 - 3) 100 135
      (by norm_num)
    have b2 := constrain_band (if inc.2 = true then hues.2 + 3 else hues.2 - 3) 171 215
      (by norm_num)
    simp only [loopRuns, loop, e1, e2]
    exact ih _ b1.1 b1.2.1 b2.1 b2.2.1

/-! ## The claims -/

/-- C1: for a successfully initialized mapper whose addresses do not wrap in 16
bits, `ShowStrip` issues exactly `4 * num_leds` `setChannelValue` calls and
nothing else: for each pixel `i` in ascending order, red, green, blue and white
of pixel `i` at `offset + stride * i + table[slot]`, where `table` is
`SetColorOrder color_order`; every pixel read is defined. -/
theorem ShowStrip_channel_writes (s : ArdDmx) (h : Initialized s)
    (hb : s.m_params.dmx_channel_offset
      + s.m_params.dmx_channels_per_light * (s.m_params.num_leds - 1) + 4 ≤ 65535) :
    (∀ i, i < s.m_params.num_leds → (GetPixel s i).isSome ∧ (GetWhitePixel s i).isSome) ∧
    s.m_rgbw = SetColorOrder s.m_params.color_order ∧
    ∃ calls, ShowStrip s = some (s, calls) ∧ calls.length = 4 * s.m_params.num_leds ∧
      calls = (List.range s.m_params.num_leds).flatMap fun i =>
        [DmxCall.setChannelValue
           (s.m_params.dmx_channel_offset + s.m_params.dmx_channels_per_light * i
             + (SetColorOrder s.m_params.color_order).get Component.R)
           ((GetPixel s i).getD CRGB.black).r,
         DmxCall.setChannelValue
           (s.m_params.dmx_channel_offset + s.m_params.dmx_channels_per_light * i
             + (SetColorOrder s.m_params.color_order).get Component.G)
           ((GetPixel s i).getD CRGB.black).g,
         DmxCall.setChannelValue
           (s.m_params.dmx_channel_offset + s.m_params.dmx_channels_per_light * i
             + (SetColorOrder s.m_params.color_order).get Component.B)
           ((GetPixel s i).getD CRGB.black).b,
         DmxCall.setChannelValue
           (s.m_params.dmx_channel_offset + s.m_params.dmx_channels_per_light * i
             + (SetColorOrder s.m_params.color_order).get Component.W)
           ((GetWhitePixel s i).getD 0)] := by
  have hwf := h.wellFormed
  have ht : s.m_rgbw = SetColorOrder s.m_params.color_order := hwf.2.2.2.2
  refine ⟨getPixel_wellFormed s hwf, ht, _, ShowStrip_wellFormed s hwf, ?_, ?_⟩
  · rw [length_flatMap_four _ _ (fun i => by simp [pixelCalls]), List.length_range]
  · apply List.flatMap_congr
    intro i hi
    have hi2 : i < s.m_params.num_leds := List.mem_range.1 hi
    have hm : s.m_params.dmx_channels_per_light * i
        ≤ s.m_params.dmx_channels_per_light * (s.m_params.num_leds - 1) :=
      Nat.mul_le_mul_left _ (by omega)
    have hR := (SetColorOrder_range s.m_params.color_order Component.R).2
    have hG := (SetColorOrder_range s.m_params.color_order Component.G).2
    have hB := (SetColorOrder_range s.m_params.color_order Component.B).2
    have hW := (SetColorOrder_range s.m_params.color_order Component.W).2
    have e0 : start_channel s i
        = s.m_params.dmx_channel_offset + s.m_params.dmx_channels_per_light * i :=
      Nat.mod_eq_of_lt (by omega)
    simp only [pixelCalls, e0, ht, RgbwTable.get] at hR hG hB hW ⊢
    rw [Nat.mod_eq_of_lt (by omega), Nat.mod_eq_of_lt (by omega), Nat.mod_eq_of_lt (by omega),
      Nat.mod_eq_of_lt (by omega)]

/-- C1, scenario of the specification: with ten channels per light, offset 10 and
order RGB, pixel 0 of colour (255, 0, 128) and white 7 is written as
11 = 255, 12 = 0, 13 = 128, 14 = 7. -/
theorem ShowStrip_channel_writes_witness :
    scenarioRGB.m_params.dmx_channel_offset
      + scenarioRGB.m_params.dmx_channels_per_light * (scenarioRGB.m_params.num_leds - 1) + 4
        ≤ 65535 ∧
    GetPixel scenarioRGB 0 = some ⟨255, 0, 128⟩ ∧ GetWhitePixel scenarioRGB 0 = some 7 ∧
    (ShowStrip scenarioRGB).map (fun r => r.2.take 4) =
      some [DmxCall.setChannelValue 11 255, DmxCall.setChannelValue 12 0,
            DmxCall.setChannelValue 13 128, DmxCall.setChannelValue 14 7] := by
  refine ⟨by decide, rfl, rfl, ?_⟩
  obtain ⟨_, _, calls, hshow, _, hcalls⟩ :=
    ShowStrip_channel_writes scenarioRGB scenarioRGB_initialized (by decide)
  rw [hshow, hcalls]
  rfl

/-- C2: for each of the 18 enumerated selectors the table written by
`SetColorOrder` is a permutation of 1, 2, 3, 4 (all entries distinct, each
between 1 and 4); for every other selector value the table is [1, 2, 3, 4]. -/
theorem SetColorOrder_permutation (colorOrder : Nat) :
    (colorOrder ≤ 17 →
      (SetColorOrder colorOrder).toList.Perm [1, 2, 3, 4] ∧
      (SetColorOrder colorOrder).toList.Nodup ∧
      ∀ x ∈ (SetColorOrder colorOrder).toList, 1 ≤ x ∧ x ≤ 4) ∧
    (17 < colorOrder → SetColorOrder colorOrder = ⟨1, 2, 3, 4⟩) := by
  refine ⟨?_, SetColorOrder_default colorOrder⟩
  intro h
  interval_cases colorOrder <;> decide

/-- C2 at `kArdDmxWGBR` (enumerated) and at 18 (not enumerated). -/
theorem SetColorOrder_permutation_witness :
    (SetColorOrder kArdDmxWGBR).toList.Perm [1, 2, 3, 4] ∧
    SetColorOrder 18 = ⟨1, 2, 3, 4⟩ :=
  ⟨((SetColorOrder_permutation kArdDmxWGBR).1 (by decide)).1,
   (SetColorOrder_permutation 18).2 (by decide)⟩

/-- C3 fails on the code: for `kArdDmxGBR`, documented as order [G, B, R], the
table written is [2, 3, 1, 4], which puts green at position 3, not 1; the
selectors whose table does not realise their documented order are exactly
GBR, BRG, GBRW, BRGW, WGBR and WBRG, and each of them gets the table that
realises the order documented for its partner (GBR and BRG exchanged). -/
theorem SetColorOrder_GBR_not_documented :
    documentedOrder kArdDmxGBR = some [Component.G, Component.B, Component.R] ∧
    SetColorOrder kArdDmxGBR = ⟨2, 3, 1, 4⟩ ∧
    (SetColorOrder kArdDmxGBR).get Component.G = 3 ∧
    ¬ orderRealised kArdDmxGBR ∧
    (List.range 18).filter (fun o => ¬ orderRealised o) =
      [kArdDmxGBR, kArdDmxBRG, kArdDmxGBRW, kArdDmxBRGW, kArdDmxWGBR, kArdDmxWBRG] ∧
    realisesOrder (SetColorOrder kArdDmxGBR) [Component.B, Component.R, Component.G] ∧
    realisesOrder (SetColorOrder kArdDmxBRG) [Component.G, Component.B, Component.R] ∧
    realisesOrder (SetColorOrder kArdDmxWGBR)
      [Component.W, Component.B, Component.R, Component.G] ∧
    realisesOrder (SetColorOrder kArdDmxWBRG)
      [Component.W, Component.G, Component.B, Component.R] := by
  decide

/-- C4: round trip.  On a successfully initialized mapper, for a pixel index
below `num_leds`, `SetPixelColor` is defined and afterwards `GetPixel` and
`GetWhitePixel` of that index return exactly the colour and the white written. -/
theorem SetPixelColor_roundtrip (s : ArdDmx) (h : Initialized s) (i : Nat)
    (hi : i < s.m_params.num_leds) (color : CRGB) (white : Nat) :
    ∃ s1, SetPixelColor s i color white = some s1 ∧
      GetPixel s1 i = some color ∧ GetWhitePixel s1 i = some white := by
  obtain ⟨s1, hs, hg, hw, _⟩ := storePixel_spec s h.wellFormed i hi color white
  refine ⟨s1, ?_, hg, hw⟩
  unfold SetPixelColor
  rw [if_pos hi, hs]

/-- C4 on the mapper set up by `main.cpp`, at pixel 5. -/
theorem SetPixelColor_roundtrip_witness :
    5 < setupState.m_params.num_leds ∧
    ∃ s1, SetPixelColor setupState 5 ⟨1, 2, 3⟩ 4 = some s1 ∧
      GetPixel s1 5 = some ⟨1, 2, 3⟩ ∧ GetWhitePixel s1 5 = some 4 :=
  ⟨by decide, SetPixelColor_roundtrip setupState setupState_initialized 5 (by decide) ⟨1, 2, 3⟩ 4⟩

/-- C5: in every mapper state, for a pixel index not below the stored `num_leds`,
`GetPixel` returns black, `GetWhitePixel` returns 0, and `SetPixelColor`,
`SetPixel` and `SetPixelHSV` return with the whole state unchanged; all five are
defined. -/
theorem out_of_range_pixel (hsv2rgb : Nat → Nat → Nat → CRGB) (s : ArdDmx) (i : Nat)
    (hi : s.m_params.num_leds ≤ i) (color : CRGB) (red green blue hue sat val white : Nat) :
    GetPixel s i = some ⟨0, 0, 0⟩ ∧ GetWhitePixel s i = some 0 ∧
    SetPixelColor s i color white = some s ∧
    SetPixel s i red green blue white = some s ∧
    SetPixelHSV hsv2rgb s i hue sat val white = some s := by
  have hn : ¬ i < s.m_params.num_leds := by omega
  refine ⟨?_, ?_, ?_, ?_, ?_⟩
  · unfold GetPixel
    rw [if_neg hn]
    rfl
  · unfold GetWhitePixel
    rw [if_neg hn]
  · unfold SetPixelColor
    rw [if_neg hn]
  · unfold SetPixel
    rw [if_neg hn]
  · unfold SetPixelHSV
    rw [if_neg hn]

/-- C5 on the never-initialized mapper (`num_leds` is 0) at index 0. -/
theorem out_of_range_pixel_witness :
    ArdDmx.fresh.m_params.num_leds ≤ 0 ∧
    GetPixel ArdDmx.fresh 0 = some ⟨0, 0, 0⟩ ∧ GetWhitePixel ArdDmx.fresh 0 = some 0 ∧
    SetPixelColor ArdDmx.fresh 0 ⟨9, 9, 9⟩ 9 = some ArdDmx.fresh ∧
    SetPixel ArdDmx.fresh 0 9 9 9 9 = some ArdDmx.fresh ∧
    SetPixelHSV (fun _ _ _ => ⟨9, 9, 9⟩) ArdDmx.fresh 0 9 9 9 9 = some ArdDmx.fresh :=
  ⟨by decide,
    out_of_range_pixel (fun _ _ _ => ⟨9, 9, 9⟩) ArdDmx.fresh 0 (by decide) ⟨9, 9, 9⟩ 9 9 9 9 9 9 9⟩

/-- C6: `Initialize` returns `kArdDmxBadInput` exactly when `num_leds < 1` or
`dmx_channels_per_light < 4`, whatever the allocations would do; then the
mapper state is the one before the call and no transport event is issued; and
the fresh mapper on which `Initialize` with `num_leds = 0` has failed has
`GetNumPixels() = 0` and a `ShowStrip` that issues no call. -/
theorem Initialize_bad_input (s : ArdDmx) (p : ArdDmxParameters) (a : AllocOutcome) :
    ((Initialize s p a).1 = kArdDmxBadInput ↔
      (p.num_leds < 1 ∨ p.dmx_channels_per_light < 4)) ∧
    ((p.num_leds < 1 ∨ p.dmx_channels_per_light < 4) →
      (Initialize s p a).2.1 = s ∧ (Initialize s p a).2.2 = []) ∧
    (p.num_leds = 0 →
      (Initialize ArdDmx.fresh p a).1 = kArdDmxBadInput ∧
      GetNumPixels (Initialize ArdDmx.fresh p a).2.1 = 0 ∧
      ShowStrip (Initialize ArdDmx.fresh p a).2.1 = some ((Initialize ArdDmx.fresh p a).2.1, [])) := by
  refine ⟨Initialize_bad_iff s p a, ?_, ?_⟩
  · intro h
    rw [Initialize_bad s p a h]
    exact ⟨rfl, rfl⟩
  · intro h
    rw [Initialize_bad ArdDmx.fresh p a (Or.inl (by omega))]
    exact ⟨rfl, rfl, rfl⟩

/-- C6 on the mapper set up by `main.cpp` with a stride of 3, and on the fresh
mapper with `num_leds = 0`. -/
theorem Initialize_bad_input_witness :
    (Initialize setupState { setupParams with dmx_channels_per_light := 3 }
        ⟨true, true, true⟩ = (kArdDmxBadInput, setupState, [])) ∧
    ShowStrip (Initialize ArdDmx.fresh { num_leds := 0 } ⟨true, true, true⟩).2.1 =
      some (ArdDmx.fresh, []) := by
  have h1 := Initialize_bad_input setupState { setupParams with dmx_channels_per_light := 3 }
    ⟨true, true, true⟩
  have h2 := Initialize_bad_input ArdDmx.fresh { num_leds := 0 } ⟨true, true, true⟩
  refine ⟨?_, (h2.2.2 rfl).2.2⟩
  have h3 := h1.1.2 (Or.inr (by decide))
  have h4 := h1.2.1 (Or.inr (by decide))
  exact Prod.ext h3 (Prod.ext h4.1 h4.2)

/-- C7 fails on the code.  When the first allocation of a re-initialization of
the mapper set up by `main.cpp` fails, `Initialize` returns `kArdDmxAllocFailed`
with a null colour buffer and the stale `num_leds = 6`, so that `GetPixel(0)`,
`GetWhitePixel(0)` and `SetPixelColor(0, ..)` index an absent buffer; when the
second allocation fails the colour buffer of the attempt is kept, and when the
third fails the white buffer of the attempt is kept and the table is already
overwritten. -/
theorem Initialize_alloc_failure_state :
    (Initialize setupState setupParams ⟨false, true, true⟩).1 = kArdDmxAllocFailed ∧
    reinitLedsFailed.m_leds = none ∧ GetNumPixels reinitLedsFailed = 6 ∧
    GetPixel reinitLedsFailed 0 = none ∧ GetWhitePixel reinitLedsFailed 0 = none ∧
    SetPixelColor reinitLedsFailed 0 ⟨1, 2, 3⟩ 4 = none ∧
    (Initialize ArdDmx.fresh scenarioWBGRParams ⟨true, false, true⟩).1 = kArdDmxAllocFailed ∧
    (Initialize ArdDmx.fresh scenarioWBGRParams ⟨true, false, true⟩).2.1.m_leds
      = some [CRGB.black, CRGB.black] ∧
    (Initialize ArdDmx.fresh scenarioWBGRParams ⟨true, true, false⟩).1 = kArdDmxAllocFailed ∧
    (Initialize ArdDmx.fresh scenarioWBGRParams ⟨true, true, false⟩).2.1.m_white_leds
      = some [0, 0] ∧
    (Initialize ArdDmx.fresh scenarioWBGRParams ⟨true, true, false⟩).2.1.m_rgbw
      = ⟨4, 3, 2, 1⟩ ∧
    (Initialize ArdDmx.fresh scenarioWBGRParams ⟨true, true, false⟩).2.1.m_params.num_leds
      = 0 := by
  decide

/-- C8: `ShowStrip` is a pure read and is idempotent.  In every mapper state,
a `ShowStrip` that returns leaves the whole state (both buffers, parameters,
table, transport pointer) unchanged and a second `ShowStrip` right after it
issues the identical sequence of calls; and in every state the program can be
in, `ShowStrip` does return. -/
theorem ShowStrip_idempotent (s : ArdDmx) :
    (∀ s1 calls, ShowStrip s = some (s1, calls) →
      s1 = s ∧ ShowStrip s1 = some (s1, calls)) ∧
    (Reachable s → ∃ calls, ShowStrip s = some (s, calls)) := by
  constructor
  · intro s1 calls h
    have e := ShowStrip_state s s1 calls h
    subst e
    exact ⟨rfl, h⟩
  · intro h
    rcases h.inv with hm | hwf
    · refine ⟨[], ?_⟩
      unfold ShowStrip
      rw [hm]
    · exact ⟨_, ShowStrip_wellFormed s hwf⟩

/-- C8 on the mapper of the RGB scenario: two `ShowStrip` calls in a row return
the same state and the same calls. -/
theorem ShowStrip_idempotent_witness :
    ∃ calls, ShowStrip scenarioRGB = some (scenarioRGB, calls) ∧
      (ShowStrip scenarioRGB).bind (fun r => ShowStrip r.1) = some (scenarioRGB, calls) := by
  obtain ⟨calls, h⟩ := (ShowStrip_idempotent scenarioRGB).2 scenarioRGB_reachable
  refine ⟨calls, h, ?_⟩
  rw [h]
  exact ((ShowStrip_idempotent scenarioRGB).1 scenarioRGB calls h).2

/-- C9, scenario WBGR: on a mapper initialized with order `kArdDmxWBGR`, ten
channels per light, offset 0 and at least two pixels, the table is [4, 3, 2, 1],
and after `SetPixel(1, 10, 20, 30, 40)` the four calls of `ShowStrip` for pixel 1
(the calls number 4 to 7) are 14 = 10, 13 = 20, 12 = 30, 11 = 40. -/
theorem ShowStrip_WBGR_scenario (s : ArdDmx) (h : Initialized s)
    (ho : s.m_params.color_order = kArdDmxWBGR)
    (hs : s.m_params.dmx_channels_per_light = 10)
    (hoff : s.m_params.dmx_channel_offset = 0)
    (hn : 2 ≤ s.m_params.num_leds) :
    s.m_rgbw.toList = [4, 3, 2, 1] ∧
    ∃ s1 calls, SetPixel s 1 10 20 30 40 = some s1 ∧ ShowStrip s1 = some (s1, calls) ∧
      (calls.drop 4).take 4 =
        [DmxCall.setChannelValue 14 10, DmxCall.setChannelValue 13 20,
         DmxCall.setChannelValue 12 30, DmxCall.setChannelValue 11 40] := by
  have hwf := h.wellFormed
  have ht : s.m_rgbw = ⟨4, 3, 2, 1⟩ := by
    rw [hwf.2.2.2.2, ho]
    rfl
  obtain ⟨s1, hst, hg, hw, _, hp, hr, _⟩ :=
    storePixel_spec s hwf 1 (by omega) ⟨10, 20, 30⟩ 40
  have hset : SetPixel s 1 10 20 30 40 = some s1 := by
    unfold SetPixel
    rw [if_pos (by omega), hst]
  have hwf1 : WellFormed s1 := storePixel_wellFormed s s1 1 _ 40 hwf hst
  refine ⟨by rw [ht]; rfl, s1, _, hset, ShowStrip_wellFormed s1 hwf1, ?_⟩
  obtain ⟨m, hm⟩ : ∃ m, s1.m_params.num_leds = m + 2 := ⟨s.m_params.num_leds - 2, by
    rw [hp]
    omega⟩
  rw [hm, List.range_eq_range', List.range'_succ, List.range'_succ, List.flatMap_cons,
    List.flatMap_cons, hg, hw]
  simp [pixelCalls, start_channel, hp, hr, hs, hoff, ht]

/-- C9 on the mapper of the WBGR scenario, freshly initialized with two pixels. -/
theorem ShowStrip_WBGR_scenario_witness :
    scenarioWBGR.m_rgbw.toList = [4, 3, 2, 1] ∧
    ∃ s1 calls, SetPixel scenarioWBGR 1 10 20 30 40 = some s1 ∧
      ShowStrip s1 = some (s1, calls) ∧
      (calls.drop 4).take 4 =
        [DmxCall.setChannelValue 14 10, DmxCall.setChannelValue 13 20,
         DmxCall.setChannelValue 12 30, DmxCall.setChannelValue 11 40] :=
  ShowStrip_WBGR_scenario scenarioWBGR scenarioWBGR_initialized rfl rfl rfl (by decide)

/-- C10: on a successfully initialized mapper `SetAll(r, g, b, w)` is defined, and
afterwards every pixel below `num_leds` reads colour (r, g, b) and white w, with
the parameters and the colour table unchanged. -/
theorem SetAll_fills (s : ArdDmx) (h : Initialized s) (red green blue white : Nat) :
    ∃ s1, SetAll s red green blue white = some s1 ∧
      (∀ i, i < s.m_params.num_leds →
        GetPixel s1 i = some ⟨red, green, blue⟩ ∧ GetWhitePixel s1 i = some white) ∧
      s1.m_params = s.m_params ∧ s1.m_rgbw = s.m_rgbw := by
  obtain ⟨⟨leds, whites, hl, hw, hn1, hn2⟩, _⟩ := h.wellFormed
  obtain ⟨leds1, whites1, hloop, _, _, hg1, hg2⟩ :=
    SetAll_loop_spec red green blue white s.m_params.num_leds 0 s leds whites hl hw
      (by omega) (by omega)
  refine ⟨_, hloop, ?_, rfl, rfl⟩
  intro i hi
  have hr : 0 ≤ i ∧ i < 0 + s.m_params.num_leds := by omega
  constructor
  · simp only [GetPixel, readAt, hi, if_true, hg1 i, hr, and_self]
  · simp only [GetWhitePixel, readAt, hi, if_true, hg2 i, hr, and_self]

/-- C10 on the mapper of the RGB scenario: `SetAll(1, 2, 3, 4)` overwrites all
six pixels. -/
theorem SetAll_fills_witness :
    ∃ s1, SetAll scenarioRGB 1 2 3 4 = some s1 ∧
      (∀ i, i < 6 → GetPixel s1 i = some ⟨1, 2, 3⟩ ∧ GetWhitePixel s1 i = some 4) ∧
      s1.m_params = scenarioRGB.m_params ∧ s1.m_rgbw = scenarioRGB.m_rgbw :=
  SetAll_fills scenarioRGB scenarioRGB_initialized 1 2 3 4

/-- C11: in every mapper state, for every pixel index (in range or not) and all
r, g, b, w, `SetPixel(index, r, g, b, w)` has the same result, state for state, as
`SetPixelColor(index, CRGB(r, g, b), w)`. -/
theorem SetPixel_eq_SetPixelColor (s : ArdDmx) (pixel red green blue white : Nat) :
    SetPixel s pixel red green blue white =
      SetPixelColor s pixel ⟨red, green, blue⟩ white := by
  unfold SetPixel SetPixelColor
  rfl

/-- C12: from every prior state, with `num_leds >= 1`, `dmx_channels_per_light >= 4`
and every allocation succeeding, `Initialize` returns `kArdDmxSuccess`; afterwards
`GetNumPixels()` is `num_leds`, the table is `SetColorOrder color_order`, and
every pixel below `num_leds` reads black with white 0. -/
theorem Initialize_postcondition (s0 : ArdDmx) (p : ArdDmxParameters)
    (h1 : 1 ≤ p.num_leds) (h2 : 4 ≤ p.dmx_channels_per_light) :
    (Initialize s0 p ⟨true, true, true⟩).1 = kArdDmxSuccess ∧
    GetNumPixels (Initialize s0 p ⟨true, true, true⟩).2.1 = p.num_leds ∧
    (Initialize s0 p ⟨true, true, true⟩).2.1.m_rgbw = SetColorOrder p.color_order ∧
    ∀ i, i < p.num_leds →
      GetPixel (Initialize s0 p ⟨true, true, true⟩).2.1 i = some ⟨0, 0, 0⟩ ∧
      GetWhitePixel (Initialize s0 p ⟨true, true, true⟩).2.1 i = some 0 := by
  rw [Initialize_ok s0 p h1 h2]
  refine ⟨rfl, rfl, rfl, ?_⟩
  intro i hi
  simp [GetPixel, GetWhitePixel, readAt, hi, CRGB.black]

/-- C12 on the mapper of the RGB scenario (pixel 0 coloured), initialized again
with the parameters of the WBGR scenario. -/
theorem Initialize_postcondition_witness :
    (Initialize scenarioRGB scenarioWBGRParams ⟨true, true, true⟩).1 = kArdDmxSuccess ∧
    GetNumPixels (Initialize scenarioRGB scenarioWBGRParams ⟨true, true, true⟩).2.1 = 2 ∧
    (Initialize scenarioRGB scenarioWBGRParams ⟨true, true, true⟩).2.1.m_rgbw
      = SetColorOrder kArdDmxWBGR ∧
    ∀ i, i < 2 →
      GetPixel (Initialize scenarioRGB scenarioWBGRParams ⟨true, true, true⟩).2.1 i
        = some ⟨0, 0, 0⟩ ∧
      GetWhitePixel (Initialize scenarioRGB scenarioWBGRParams ⟨true, true, true⟩).2.1 i
        = some 0 :=
  Initialize_postcondition scenarioRGB scenarioWBGRParams (by decide) (by decide)

/-- C13: on every successful `Initialize`, the transport events are the deletion
of the old master, if there was one, the construction of the new master, and on
the new master exactly `enable()` followed by
`setChannelRange(dmx_channel_offset, dmx_max_channels, 0)`; no `setChannelValue` is
among them, so every call of a later `ShowStrip` comes after the zeroing. -/
theorem Initialize_transport_calls (s0 : ArdDmx) (p : ArdDmxParameters) (a : AllocOutcome)
    (s : ArdDmx) (ev : List DmxCall) (h : Initialize s0 p a = (kArdDmxSuccess, s, ev)) :
    s.m_dmx_master = some ⟨p.dmx_max_channels, p.pin⟩ ∧
    ev = deleteMaster s0.m_dmx_master ++
      [DmxCall.construct p.dmx_max_channels p.pin, DmxCall.enable,
       DmxCall.setChannelRange p.dmx_channel_offset p.dmx_max_channels 0] ∧
    ∀ c v, DmxCall.setChannelValue c v ∉ ev := by
  obtain ⟨_, hs, hev⟩ := Initialize_success s0 p a s ev h
  refine ⟨by rw [hs], hev, ?_⟩
  intro c v hm
  rw [hev] at hm
  cases hmm : s0.m_dmx_master <;> simp [hmm, deleteMaster] at hm

/-- C13 on `setup()` of `main.cpp`: the events are the construction of the master,
`enable()` and `setChannelRange(10, 512, 0)`. -/
theorem Initialize_transport_calls_witness :
    (Initialize ArdDmx.fresh setupParams ⟨true, true, true⟩).2.2 =
      [DmxCall.construct 512 2, DmxCall.enable, DmxCall.setChannelRange 10 512 0] :=
  (Initialize_transport_calls ArdDmx.fresh setupParams ⟨true, true, true⟩ setupState _ rfl).2.1

/-- C14 fails on the code on the path of re-initialization.  The destructor
issues `setChannelRange(offset, max, 0)` and `disable()` before the master is
deleted, but a further `Initialize` on the mapper set up by `main.cpp` only
deletes the old master: its events start with the deletion, and neither a
`disable()` nor a zeroing with the old offset precedes it. -/
theorem Initialize_reinit_no_shutdown :
    destroy setupState =
      [DmxCall.setChannelRange 10 512 0, DmxCall.disable, DmxCall.destruct] ∧
    (Initialize setupState scenarioWBGRParams ⟨true, true, true⟩).1 = kArdDmxSuccess ∧
    (Initialize setupState scenarioWBGRParams ⟨true, true, true⟩).2.2 =
      [DmxCall.destruct, DmxCall.construct 512 2, DmxCall.enable,
       DmxCall.setChannelRange 0 512 0] ∧
    DmxCall.disable ∉ (Initialize setupState scenarioWBGRParams ⟨true, true, true⟩).2.2 := by
  decide

/-- C15: for each of the six 3-letter selectors the table has white at position
4 and red, green, blue at positions 1..3, and is the table of the 4-letter selector
with the same letters followed by W; for each of the six selectors that start
with W the table has white at position 1 and red, green, blue at positions 2..4. -/
theorem SetColorOrder_white_position :
    (∀ o, o ≤ 5 →
      (SetColorOrder o).get Component.W = 4 ∧
      [(SetColorOrder o).get Component.R, (SetColorOrder o).get Component.G,
        (SetColorOrder o).get Component.B].Perm [1, 2, 3] ∧
      SetColorOrder o = SetColorOrder (o + 6)) ∧
    (∀ o, 12 ≤ o → o ≤ 17 →
      (SetColorOrder o).get Component.W = 1 ∧
      [(SetColorOrder o).get Component.R, (SetColorOrder o).get Component.G,
        (SetColorOrder o).get Component.B].Perm [2, 3, 4]) := by
  constructor
  · intro o h
    interval_cases o <;> decide
  · intro o h1 h2
    interval_cases o <;> decide

/-- C15 at `kArdDmxGBR` (partner `kArdDmxGBRW`) and at `kArdDmxWGRB`. -/
theorem SetColorOrder_white_position_witness :
    (SetColorOrder kArdDmxGBR).get Component.W = 4 ∧
    SetColorOrder kArdDmxGBR = SetColorOrder kArdDmxGBRW ∧
    (SetColorOrder kArdDmxWGRB).get Component.W = 1 :=
  ⟨(SetColorOrder_white_position.1 kArdDmxGBR (by decide)).1,
   (SetColorOrder_white_position.1 kArdDmxGBR (by decide)).2.2,
   (SetColorOrder_white_position.2 kArdDmxWGRB (by decide) (by decide)).1⟩

/-- C16: on a successfully initialized mapper, for a pixel index below `num_leds`
and every white value, `SetPixelHSV(i, 0, 255, 255, w)` is defined and stores pure
red: afterwards `GetPixel(i)` is (255, 0, 0) and `GetWhitePixel(i)` is w, and the
state is the one produced by `SetPixel(i, 255, 0, 0, w)`. -/
theorem SetPixelHSV_pure_red (s : ArdDmx) (h : Initialized s) (i : Nat)
    (hi : i < s.m_params.num_leds) (white : Nat) :
    ∃ s1, SetPixelHSV hsv2rgb s i 0 255 255 white = some s1 ∧
      GetPixel s1 i = some ⟨255, 0, 0⟩ ∧ GetWhitePixel s1 i = some white ∧
      SetPixel s i 255 0 0 white = some s1 := by
  obtain ⟨s1, hs, hg, hw, _⟩ := storePixel_spec s h.wellFormed i hi ⟨255, 0, 0⟩ white
  have e : SetPixel s i 255 0 0 white = some s1 := by
    unfold SetPixel
    rw [if_pos hi, hs]
  exact ⟨s1, (SetPixelHSV_of_red hsv2rgb (by decide) s i white).trans e, hg, hw, e⟩

/-- C16 on the mapper set up by `main.cpp`, at pixel 3 with white 9. -/
theorem SetPixelHSV_pure_red_witness :
    3 < setupState.m_params.num_leds ∧
    ∃ s1, SetPixelHSV hsv2rgb setupState 3 0 255 255 9 = some s1 ∧
      GetPixel s1 3 = some ⟨255, 0, 0⟩ ∧ GetWhitePixel s1 3 = some 9 ∧
      SetPixel setupState 3 255 0 0 9 = some s1 :=
  ⟨by decide, SetPixelHSV_pure_red setupState setupState_initialized 3 (by decide) 9⟩

/-- C17: addresses are not checked against `dmx_max_channels`.  `Initialize`
accepts 200 lights of four channels at offset 0 with `dmx_max_channels = 512`, and
the `ShowStrip` that follows issues 800 calls, the last four, for pixel 199, on
channels 797 to 800, all above 512. -/
theorem ShowStrip_exceeds_max_channels :
    (Initialize ArdDmx.fresh overrunParams ⟨true, true, true⟩).1 = kArdDmxSuccess ∧
    overrunState.m_params.dmx_max_channels = 512 ∧
    ∃ calls, ShowStrip overrunState = some (overrunState, calls) ∧
      calls.length = 800 ∧
      calls.drop 796 =
        [DmxCall.setChannelValue 797 0, DmxCall.setChannelValue 798 0,
         DmxCall.setChannelValue 799 0, DmxCall.setChannelValue 800 0] ∧
      ∃ c v, DmxCall.setChannelValue c v ∈ calls ∧
        overrunState.m_params.dmx_max_channels < c := by
  have hn : overrunState.m_params.num_leds = 199 + 1 := rfl
  refine ⟨rfl, rfl, _, ShowStrip_wellFormed overrunState overrunState_initialized.wellFormed,
    ?_, ?_, 797, 0, ?_, by decide⟩
  · rw [length_flatMap_four _ _ (fun i => by simp [pixelCalls]), List.length_range]
    rfl
  · rw [hn, List.range_succ, List.flatMap_append,
      List.drop_left' (by rw [length_flatMap_four _ _ (fun i => by simp [pixelCalls]),
        List.length_range])]
    simp only [List.flatMap_cons, List.flatMap_nil, List.append_nil]
    exact overrunState_pixel199
  · rw [List.mem_flatMap]
    refine ⟨199, List.mem_range.2 (by decide), ?_⟩
    rw [overrunState_pixel199]
    exact List.mem_cons_self _ _

/-- C19: frame of the per-pixel mutators.  On a successfully initialized mapper,
for an index `i` below `num_leds`, each of `SetPixelColor`, `SetPixel` and
`SetPixelHSV` is defined and changes only the colour and the white of pixel `i`:
every other pixel reads as before, and the parameters (so `num_leds`), the table
and the transport pointer are unchanged. -/
theorem mutators_frame (hsv : Nat → Nat → Nat → CRGB) (s : ArdDmx) (h : Initialized s)
    (i : Nat) (hi : i < s.m_params.num_leds) (color : CRGB)
    (red green blue hue sat val white : Nat) :
    ∀ r, (r = SetPixelColor s i color white ∨ r = SetPixel s i red green blue white ∨
          r = SetPixelHSV hsv s i hue sat val white) →
      ∃ s1, r = some s1 ∧
        (∀ j, j ≠ i → j < s.m_params.num_leds →
          GetPixel s1 j = GetPixel s j ∧ GetWhitePixel s1 j = GetWhitePixel s j) ∧
        s1.m_params = s.m_params ∧ s1.m_rgbw = s.m_rgbw ∧
        s1.m_dmx_master = s.m_dmx_master := by
  have key : ∀ c : CRGB, ∃ s1, storePixel s i c white = some s1 ∧
      (∀ j, j ≠ i → j < s.m_params.num_leds →
        GetPixel s1 j = GetPixel s j ∧ GetWhitePixel s1 j = GetWhitePixel s j) ∧
      s1.m_params = s.m_params ∧ s1.m_rgbw = s.m_rgbw ∧
      s1.m_dmx_master = s.m_dmx_master := by
    intro c
    obtain ⟨s1, hs, _, _, hf, hp, hr, hm⟩ := storePixel_spec s h.wellFormed i hi c white
    exact ⟨s1, hs, fun j hj _ => hf j hj, hp, hr, hm⟩
  intro r hr
  rcases hr with hr | hr | hr
  · rw [hr]
    unfold SetPixelColor
    rw [if_pos hi]
    exact key color
  · rw [hr]
    unfold SetPixel
    rw [if_pos hi]
    exact key ⟨red, green, blue⟩
  · rw [hr]
    unfold SetPixelHSV
    rw [if_pos hi]
    exact key (hsv hue sat val)

/-- C19 on the mapper of the RGB scenario: `SetPixel(1, 10, 20, 30, 40)` leaves
pixel 0, coloured (255, 0, 128) with white 7, as it was. -/
theorem mutators_frame_witness :
    ∃ s1, SetPixel scenarioRGB 1 10 20 30 40 = some s1 ∧
      GetPixel s1 0 = some ⟨255, 0, 128⟩ ∧ GetWhitePixel s1 0 = some 7 ∧
      s1.m_params = scenarioRGB.m_params ∧ s1.m_rgbw = scenarioRGB.m_rgbw := by
  obtain ⟨s1, hs, hf, hp, hr, _⟩ :=
    mutators_frame hsv2rgb scenarioRGB scenarioRGB_initialized 1 (by decide) ⟨0, 0, 0⟩
      10 20 30 0 0 0 40 _ (Or.inr (Or.inl rfl))
  exact ⟨s1, hs, (hf 0 (by decide) (by decide)).1, (hf 0 (by decide) (by decide)).2, hp, hr⟩

/-- C18: no two writes of one `ShowStrip` collide.  On a successfully initialized
mapper whose addresses do not wrap in 16 bits, the map from (pixel, slot) to
`offset + stride * i + table[slot]` is injective on the pixels below `num_leds` and
the four slots; and `ShowStrip` returns calls among which the last write to the
channel of pixel `i` and slot `c` is the component `c` of pixel `i`. -/
theorem ShowStrip_no_collision (s : ArdDmx) (h : Initialized s)
    (hb : s.m_params.dmx_channel_offset
      + s.m_params.dmx_channels_per_light * (s.m_params.num_leds - 1) + 4 ≤ 65535) :
    (∀ i j c d, i < s.m_params.num_leds → j < s.m_params.num_leds →
      s.m_params.dmx_channel_offset + s.m_params.dmx_channels_per_light * i
          + s.m_rgbw.get c
        = s.m_params.dmx_channel_offset + s.m_params.dmx_channels_per_light * j
          + s.m_rgbw.get d →
      i = j ∧ c = d) ∧
    ∃ calls, ShowStrip s = some (s, calls) ∧
      ∀ i c, i < s.m_params.num_leds →
        ∃ color white, GetPixel s i = some color ∧ GetWhitePixel s i = some white ∧
          lastWrite calls
            (s.m_params.dmx_channel_offset + s.m_params.dmx_channels_per_light * i
              + s.m_rgbw.get c)
            = some (componentValue color white c) := by
  have hwf := h.wellFormed
  have ht : s.m_rgbw = SetColorOrder s.m_params.color_order := hwf.2.2.2.2
  have hinj : ∀ i j c d, i < s.m_params.num_leds → j < s.m_params.num_leds →
      s.m_params.dmx_channel_offset + s.m_params.dmx_channels_per_light * i
          + (SetColorOrder s.m_params.color_order).get c
        = s.m_params.dmx_channel_offset + s.m_params.dmx_channels_per_light * j
          + (SetColorOrder s.m_params.color_order).get d →
      i = j ∧ c = d := by
    intro i j c d _ _ he
    obtain ⟨hij, hcd⟩ := address_injective _ _ i j _ _ hwf.2.2.2.1
      (SetColorOrder_range _ c) (SetColorOrder_range _ d) he
    exact ⟨hij, SetColorOrder_injective _ c d hcd⟩
  rw [ht]
  refine ⟨hinj, _, ShowStrip_wellFormed s hwf, ?_⟩
  intro i c hi
  obtain ⟨hc, hw⟩ := getPixel_wellFormed s hwf i hi
  obtain ⟨color, hcolor⟩ := Option.isSome_iff_exists.1 hc
  obtain ⟨white, hwhite⟩ := Option.isSome_iff_exists.1 hw
  refine ⟨color, white, hcolor, hwhite, ?_⟩
  apply lastWrite_unique
  · rw [List.mem_flatMap]
    refine ⟨i, List.mem_range.2 hi, ?_⟩
    rw [mem_pixelCalls s hwf hb i hi, hcolor, hwhite]
    exact ⟨c, rfl⟩
  · intro v1 hv1
    rw [List.mem_flatMap] at hv1
    obtain ⟨j, hj, hmem⟩ := hv1
    have hj2 : j < s.m_params.num_leds := List.mem_range.1 hj
    rw [mem_pixelCalls s hwf hb j hj2] at hmem
    obtain ⟨d, hd⟩ := hmem
    simp only [DmxCall.setChannelValue.injEq] at hd
    obtain ⟨hij, hcd⟩ := hinj i j c d hi hj2 hd.1
    subst hij
    subst hcd
    rw [hd.2, hcolor, hwhite]
    rfl

/-- C18 on the mapper of the RGB scenario: after `ShowStrip` the last write to
channel 13, the blue channel of pixel 0, is 128. -/
theorem ShowStrip_no_collision_witness :
    ∃ calls, ShowStrip scenarioRGB = some (scenarioRGB, calls) ∧
      lastWrite calls 13 = some 128 := by
  obtain ⟨_, calls, hshow, hlast⟩ :=
    ShowStrip_no_collision scenarioRGB scenarioRGB_initialized (by decide)
  obtain ⟨color, white, hc, _, hl⟩ := hlast 0 Component.B (by decide)
  have e : color = ⟨255, 0, 128⟩ := by
    have h0 : GetPixel scenarioRGB 0 = some ⟨255, 0, 128⟩ := rfl
    rw [h0] at hc
    exact (Option.some.inj hc).symm
  subst e
  exact ⟨calls, hshow, hl⟩

/-- C20 as stated fails at the largest `int`: on a 16-bit target
`update_hue(32767, {100, 135}, true)` computes `32767 + 3`, which overflows, so the
call returns no value equal to the clamp of `hue + 3`; likewise on a 32-bit
target at 2147483647. -/
theorem update_hue_overflow :
    (INT_MIN 16 ≤ 32767 ∧ 32767 ≤ INT_MAX 16) ∧
    update_hue 16 32767 (100, 135) true = none ∧
    (¬ ∃ v, update_hue 16 32767 (100, 135) true = some v ∧ 100 ≤ v ∧ v ≤ 135 ∧
      v = max 100 (min 135 (32767 + 3))) ∧
    update_hue 32 2147483647 (100, 135) true = none := by
  have e : update_hue 16 32767 (100, 135) true = none := by
    simp [update_hue, intResult, incr, INT_MAX, INT_MIN]
  refine ⟨by norm_num [INT_MAX, INT_MIN], e, ?_, ?_⟩
  · rintro ⟨v, hv, _⟩
    rw [e] at hv
    cases hv
  · simp [update_hue, intResult, incr, INT_MAX, INT_MIN]

/-- C20, amended: for every range with `range[0] <= range[1]`, every `int` hue and
either direction for which `hue + 3` (increasing) or `hue - 3` (decreasing) is
representable, `update_hue` returns a value in `[range[0], range[1]]`, the clamp
of `hue + 3` or `hue - 3`; and starting from `hue1 = 110`, `hue2 = 200`, after
every sequence of runs of `loop()` `hue1` is in [100, 135] and `hue2` in
[171, 215], both within 0..255. -/
theorem update_hue_band (int_bits : Nat) (hbits : 16 ≤ int_bits) (hue low high : Int)
    (increase : Bool) (hr : low ≤ high)
    (hint : INT_MIN int_bits ≤ hue ∧ hue ≤ INT_MAX int_bits)
    (hfit : if increase = true then hue + 3 ≤ INT_MAX int_bits
            else INT_MIN int_bits ≤ hue - 3) :
    (∃ v, update_hue int_bits hue (low, high) increase = some v ∧ low ≤ v ∧ v ≤ high ∧
      v = max low (min high (if increase = true then hue + 3 else hue - 3))) ∧
    ∀ inputs : List (Bool × Bool),
      ∃ hue1 hue2, loopRuns int_bits inputs initialHues = some (hue1, hue2) ∧
        (100 ≤ hue1 ∧ hue1 ≤ 135) ∧ (171 ≤ hue2 ∧ hue2 ≤ 215) ∧
        (0 ≤ hue1 ∧ hue1 < 256) ∧ (0 ≤ hue2 ∧ hue2 < 256) := by
  constructor
  · have hb := constrain_band (if increase = true then hue + 3 else hue - 3) low high hr
    exact ⟨_, update_hue_some int_bits hue (low, high) increase hint hfit, hb.1, hb.2.1, hb.2.2⟩
  · intro inputs
    obtain ⟨hue1, hue2, hrun, a1, a2, a3, a4⟩ :=
      loopRuns_band int_bits hbits inputs initialHues (by decide) (by decide) (by decide)
        (by decide)
    exact ⟨hue1, hue2, hrun, ⟨a1, a2⟩, ⟨a3, a4⟩, ⟨by omega, by omega⟩, ⟨by omega, by omega⟩⟩

/-- C20, amended, on a 16-bit target: `update_hue(134, {100, 135}, true)` is 135,
and after the runs of `loop()` with sensor comparisons (true, false), (true, true)
the hues are (116, 200). -/
theorem update_hue_band_witness :
    update_hue 16 134 (100, 135) true = some 135 ∧
    loopRuns 16 [(true, false), (true, true)] initialHues = some (116, 200) := by
  obtain ⟨⟨v, hv, _, _, hval⟩, _⟩ :=
    update_hue_band 16 (by decide) 134 100 135 true (by decide)
      (by norm_num [INT_MAX, INT_MIN]) (by norm_num [INT_MAX])
  refine ⟨?_, by simp [loopRuns, loop, update_hue, intResult, incr, INT_MAX, INT_MIN,
    initialHues, hue1_range, hue2_range, constrain]⟩
  rw [hv, hval]
  norm_num

end Fiddlehex
